import Mathlib

/-!
Shallow embedding of the HiveLord task scheduler (`src/app/core/scheduler.py`,
class `Scheduler`, together with the `SchedulerTask` row shape from
`src/app/storage/models.py`).

Modelling conventions:
* UTC instants (`datetime`) are `Nat`.
* The SQLAlchemy session is modelled as a list of `TaskRow` carried inside the
  scheduler state; a query `.filter(task_id == x).first()` becomes "update the
  first row whose `task_id` equals `x`".
* An `asyncio.Task` handle is modelled by a `Nat` timer identifier; calling
  `.cancel()` on a handle appends its identifier to `cancelledTimers` and emits
  a `timer_cancelled` event, and `loop.create_task` allocates a fresh
  identifier and emits `timer_armed`.  `log_event` calls become entries of the
  `events` trace (same order as the source).
* A coroutine's runtime behaviour (whether awaiting it raises, whether a
  `CancelledError` is delivered while sleeping) is external nondeterminism and
  is passed to the run functions as explicit boolean parameters.
* The external `croniter`/`zoneinfo` pair is not code of this repository; it is
  modelled by a `CronEnv` parameter whose `cronNext` returns `none` exactly
  when `croniter(expr, ...)` would raise (malformed expression), mirroring the
  `try/except` structure of the source at each use site.
* `json.dumps`/`json.loads` of the parameter mapping are treated as an opaque
  round trip: parameters travel as an optional opaque string.
-/

/-- Log/trace events, mirroring the `log_event(event_type=...)` calls of
`scheduler.py` plus the two model-level timer markers (`timer_armed` for
`loop.create_task`, `timer_cancelled` for `task.cancel()`). -/
inductive Event where
  | timer_armed (tid : Nat)
  | timer_cancelled (tid : Nat)
  | task_scheduled (nm : String)
  | task_cancelled (nm : String)
  | task_error (nm : String)
  | one_shot_rejected_past (task_id : String)
  | one_shot_scheduled (task_id : String)
  | one_shot_cancelled_before_run (task_id : String)
  | one_shot_executing (task_id : String)
  | one_shot_completed (task_id : String)
  | one_shot_cancelled (task_id : String)
  | one_shot_error (task_id : String)
  | cron_scheduled (task_id : String)
  | cron_executing (task_id : String)
  | cron_completed (task_id : String)
  | cron_error (task_id : String)
  | cron_handler_missing (task_id : String)
  | all_tasks_cancelled
  | periodic_task_restore_skipped (task_id : String)
  | one_shot_task_restore_skipped (task_id : String)
  | one_shot_task_restored (task_id : String)
  | one_shot_task_expired (task_id : String)
  | cron_task_restore_skipped (task_id : String)
  | cron_task_restored (task_id : String)
  | task_restore_error (task_id : String)
  | tasks_restored
  deriving DecidableEq, Repr

/-- A registered restore-handler factory (`Scheduler._restore_handlers` value).
Invoking the factory (`handler_func(parameters)`) raises iff
`creationRaises`; the behaviour of awaiting the produced coroutine is supplied
separately at each await site. -/
structure Handler where
  creationRaises : Bool
  deriving DecidableEq, Repr

/-- One durable `scheduler_tasks` row (`SchedulerTask` in
`src/app/storage/models.py`); all optional columns are present in the model
(the `hasattr` probes in the source succeed). -/
structure TaskRow where
  task_id : String
  task_type : String
  status : String
  name : Option String := none
  scheduled_for : Option Nat := none
  interval_seconds : Option Nat := none
  handler_type : Option String := none
  parameters_json : Option String := none
  cron_expression : Option String := none
  timezone_name : Option String := none
  next_run_at : Option Nat := none
  last_run_at : Option Nat := none
  updated_at : Option Nat := none
  completed_at : Option Nat := none
  deriving DecidableEq, Repr

/-- External cron evaluator (the `croniter` + `zoneinfo` libraries):
`cronNext expr tz now` is the next occurrence strictly computed by
`croniter(expr, now_local).get_next(datetime)` converted to UTC, or `none`
when `croniter` raises (malformed expression / bad timezone). -/
structure CronEnv where
  cronNext : String → String → Nat → Option Nat

/-- In-memory scheduler state: the fields of the Python `Scheduler` object
(leading underscores dropped), plus the modelled database session (`db`), the
event trace, the set of cancelled timer handles and a fresh-handle counter. -/
structure Scheduler where
  tasks : List (String × Nat) := []
  one_shot_tasks : List (String × Nat) := []
  cron_tasks : List (String × Nat) := []
  cancelled : Bool := false
  enable_persistence : Bool := true
  restore_handlers : List (String × Handler) := []
  db : List TaskRow := []
  cancelledTimers : List Nat := []
  nextTimerId : Nat := 0
  events : List Event := []
  deriving DecidableEq, Repr

/-- Python-dict lookup on an association list (first binding wins; our insert
keeps at most one binding per key, matching dict semantics). -/
def lookupKey {β : Type} : List (String × β) → String → Option β
  | [], _ => none
  | p :: rest, k => if p.1 = k then some p.2 else lookupKey rest k

/-- Python `key in dict`. -/
def containsKey {β : Type} (t : List (String × β)) (k : String) : Bool :=
  t.any (fun p => p.1 == k)

/-- Python `dict[key] = value` (replaces any existing binding). -/
def tableInsert {β : Type} (t : List (String × β)) (k : String) (v : β) :
    List (String × β) :=
  (k, v) :: t.filter (fun p => p.1 != k)

/-- Python `del dict[key]` / `dict.pop(key, None)`. -/
def tableRemove {β : Type} (t : List (String × β)) (k : String) :
    List (String × β) :=
  t.filter (fun p => p.1 != k)

/-- Number of bindings a table holds for a key. -/
def countKey {β : Type} (t : List (String × β)) (k : String) : Nat :=
  (t.filter (fun p => p.1 == k)).length

/-- Update the first element satisfying `p` (SQLAlchemy `.first()` followed by
mutation and commit); no-op when no element matches. -/
def updateFirst {α : Type} (p : α → Bool) (f : α → α) : List α → List α
  | [] => []
  | x :: xs => if p x then f x :: xs else x :: updateFirst p f xs

/-- Body of `Scheduler._update_task_status`: set `status` (and optionally
`completed_at`) on the first row with the given `task_id`, stamping
`updated_at := now`. -/
def dbUpdateStatus (db : List TaskRow) (task_id status : String)
    (completed_at : Option Nat) (now : Nat) : List TaskRow :=
  updateFirst (fun r => r.task_id == task_id)
    (fun r =>
      { r with
        status := status
        updated_at := some now
        completed_at := match completed_at with
          | some c => some c
          | none => r.completed_at })
    db

/-- Body of `Scheduler._save_periodic_task`: upsert by `task_id = name`. -/
def dbUpsertPeriodic (db : List TaskRow) (nm : String) (interval : Nat)
    (handler_type : Option String) (parameters_json : Option String)
    (now : Nat) : List TaskRow :=
  if db.any (fun r => r.task_id == nm) then
    updateFirst (fun r => r.task_id == nm)
      (fun r =>
        { r with
          task_type := "periodic"
          name := some nm
          status := "scheduled"
          interval_seconds := some interval
          handler_type := handler_type
          parameters_json := parameters_json
          updated_at := some now })
      db
  else
    db ++ [{ task_id := nm, task_type := "periodic", status := "scheduled",
             name := some nm, interval_seconds := some interval,
             handler_type := handler_type,
             parameters_json := parameters_json }]

/-- Body of `Scheduler._save_one_shot_task`: unconditional insert of a new
`one_shot` row in `scheduled` status. -/
def dbInsertOneShot (db : List TaskRow) (task_id : String) (when_dt_utc : Nat)
    (nm : Option String) (handler_type : Option String)
    (parameters_json : Option String) : List TaskRow :=
  db ++ [{ task_id := task_id, task_type := "one_shot", status := "scheduled",
           name := nm, scheduled_for := some when_dt_utc,
           handler_type := handler_type, parameters_json := parameters_json }]

/-- Body of `Scheduler._save_cron_task`: upsert by `task_id`, recording the
expression, timezone and (possibly `none`) precomputed `next_run_at`. -/
def dbUpsertCron (db : List TaskRow) (task_id cron_expression timezone_name : String)
    (nm : Option String) (handler_type : Option String)
    (parameters_json : Option String) (next_run_at_utc : Option Nat)
    (now : Nat) : List TaskRow :=
  if db.any (fun r => r.task_id == task_id) then
    updateFirst (fun r => r.task_id == task_id)
      (fun r =>
        { r with
          task_type := "cron"
          name := nm
          status := "scheduled"
          handler_type := handler_type
          parameters_json := parameters_json
          cron_expression := some cron_expression
          timezone_name := some timezone_name
          next_run_at := next_run_at_utc
          updated_at := some now })
      db
  else
    db ++ [{ task_id := task_id, task_type := "cron", status := "scheduled",
             name := nm, handler_type := handler_type,
             parameters_json := parameters_json,
             cron_expression := some cron_expression,
             timezone_name := some timezone_name,
             next_run_at := next_run_at_utc }]

/-- Best-effort `next_run_at` write at the top of `Scheduler._cron_loop`. -/
def dbSetNextRun (db : List TaskRow) (task_id : String) (next_utc now : Nat) :
    List TaskRow :=
  updateFirst (fun r => r.task_id == task_id)
    (fun r => { r with next_run_at := some next_utc, updated_at := some now })
    db

/-- Best-effort `last_run_at` write after an action completes in
`Scheduler._cron_loop`. -/
def dbSetLastRun (db : List TaskRow) (task_id : String) (now : Nat) :
    List TaskRow :=
  updateFirst (fun r => r.task_id == task_id)
    (fun r => { r with last_run_at := some now, updated_at := some now })
    db

namespace Scheduler

/-- `Scheduler.__init__`. -/
def init (enable_persistence : Bool) : Scheduler :=
  { enable_persistence := enable_persistence }

/-- `Scheduler._update_task_status` (guarded by `_enable_persistence`;
persistence failure paths are log-and-continue and carry no state change). -/
def update_task_status (s : Scheduler) (task_id status : String)
    (completed_at : Option Nat) (now : Nat) : Scheduler :=
  if s.enable_persistence then
    { s with db := dbUpdateStatus s.db task_id status completed_at now }
  else s

/-- `Scheduler._save_periodic_task` (guarded by `_enable_persistence`). -/
def save_periodic_task (s : Scheduler) (nm : String) (interval : Nat)
    (handler_type : Option String) (parameters_json : Option String)
    (now : Nat) : Scheduler :=
  if s.enable_persistence then
    { s with db := dbUpsertPeriodic s.db nm interval handler_type parameters_json now }
  else s

/-- `Scheduler._save_one_shot_task` (guarded by `_enable_persistence`). -/
def save_one_shot_task (s : Scheduler) (task_id : String) (when_dt_utc : Nat)
    (nm : Option String) (handler_type : Option String)
    (parameters_json : Option String) : Scheduler :=
  if s.enable_persistence then
    { s with db := dbInsertOneShot s.db task_id when_dt_utc nm handler_type parameters_json }
  else s

/-- `Scheduler._save_cron_task` (guarded by `_enable_persistence`). -/
def save_cron_task (s : Scheduler) (task_id cron_expression timezone_name : String)
    (nm : Option String) (handler_type : Option String)
    (parameters_json : Option String) (next_run_at_utc : Option Nat)
    (now : Nat) : Scheduler :=
  if s.enable_persistence then
    { s with db := dbUpsertCron s.db task_id cron_expression timezone_name nm
               handler_type parameters_json next_run_at_utc now }
  else s

/-- `Scheduler.register_restore_handler`. -/
def register_restore_handler (s : Scheduler) (handler_type : String)
    (h : Handler) : Scheduler :=
  { s with restore_handlers := tableInsert s.restore_handlers handler_type h }

/-- `Scheduler.schedule_periodic`: cancel any existing periodic timer under
`nm` (marking the durable row `cancelled`), arm a fresh timer, persist the
task, and emit `task_scheduled`. -/
def schedule_periodic (s : Scheduler) (nm : String) (interval : Nat)
    (handler_type : Option String) (parameters_json : Option String)
    (now : Nat) : Scheduler :=
  let s1 := match lookupKey s.tasks nm with
    | some tid =>
        let sA := { s with cancelledTimers := s.cancelledTimers ++ [tid],
                           events := s.events ++ [Event.timer_cancelled tid] }
        update_task_status sA nm "cancelled" none now
    | none => s
  let tid := s1.nextTimerId
  let s2 := { s1 with tasks := tableInsert s1.tasks nm tid,
                      nextTimerId := tid + 1,
                      events := s1.events ++ [Event.timer_armed tid] }
  let s3 := save_periodic_task s2 nm interval handler_type parameters_json now
  { s3 with events := s3.events ++ [Event.task_scheduled nm] }

/-- `Scheduler.cancel_periodic_task`. -/
def cancel_periodic_task (s : Scheduler) (nm : String) (now : Nat) : Scheduler :=
  match lookupKey s.tasks nm with
  | some tid =>
      let s1 := { s with cancelledTimers := s.cancelledTimers ++ [tid],
                         events := s.events ++ [Event.timer_cancelled tid],
                         tasks := tableRemove s.tasks nm }
      let s2 := update_task_status s1 nm "cancelled" none now
      { s2 with events := s2.events ++ [Event.task_cancelled nm] }
  | none => s

end Scheduler

/-- Outcome of one iteration of the `while` loop in
`Scheduler._periodic_task`: whether the wrapped function was invoked and
whether the loop proceeds to the next iteration (the timer stays armed). -/
structure PeriodicStepResult where
  state : Scheduler
  executed : Bool
  continues : Bool
  deriving DecidableEq, Repr

/-- Outcome of the coroutine body `Scheduler._one_shot_task`. `raised` means
the action's exception was logged and re-raised out of the coroutine;
`cancelled_during_sleep` means a `CancelledError` was delivered while
sleeping, logged, and re-raised. -/
inductive OneShotResult where
  | rejected_past
  | cancelled_during_sleep
  | cancelled_before_run
  | completed
  | raised
  deriving DecidableEq, Repr

/-- Result of one iteration of the `while` loop in `Scheduler._cron_loop`:
`exited` when the `_cancelled` flag stops the loop, `crashed` when
`croniter(...)` raises out of the coroutine (no surrounding handler), and
`continued fired newNow` when the iteration finished with the clock at
`newNow`, having attempted an execution iff `fired`. -/
inductive CronStepResult where
  | exited
  | crashed
  | continued (fired : Bool) (newNow : Nat)
  deriving DecidableEq, Repr

/-- External nondeterminism of one cron-loop iteration: how much time passes
after the occurrence (action duration plus any downtime before the loop next
reads the clock), and whether awaiting the action raises. -/
structure CronIter where
  gap : Nat
  actionRaises : Bool
  deriving DecidableEq, Repr

/-- Snapshot returned by `Scheduler.get_status` (the per-task dictionaries are
reduced to the listed identifiers; `running` reflects the event-loop state,
which is external to the model and passed in). -/
structure StatusSnapshot where
  running : Bool
  cancelled : Bool
  periodic_names : List String
  one_shot_ids : List String
  periodic_count : Nat
  one_shot_count : Nat
  deriving DecidableEq, Repr

/-- Result shape of `Scheduler.load_pending_tasks` (the three lists of row
dictionaries; rows are carried whole). -/
structure LoadedTasks where
  periodic : List TaskRow
  one_shot : List TaskRow
  cron : List TaskRow
  deriving DecidableEq, Repr

/-- The `restored` dictionary built by `Scheduler.restore_pending_tasks`:
exactly the keys the source initialises — a `periodic` count, a `one_shot`
count, a `failed` count and an `errors` list. -/
structure RestoreSummary where
  periodic : Nat
  one_shot : Nat
  failed : Nat
  errors : List String
  deriving DecidableEq, Repr

namespace Scheduler

/-- One iteration of `Scheduler._periodic_task`: if the `_cancelled` flag is
set the loop exits without invoking the function; otherwise the function runs
(an exception is caught and logged as `task_error`), then the loop sleeps
(`CancelledError` during the sleep breaks the loop). -/
def periodic_task_step (s : Scheduler) (nm : String) (funcRaises : Bool)
    (cancelledDuringSleep : Bool) : PeriodicStepResult :=
  if s.cancelled then ⟨s, false, false⟩
  else
    let s1 := if funcRaises
              then { s with events := s.events ++ [Event.task_error nm] }
              else s
    if cancelledDuringSleep then ⟨s1, true, false⟩ else ⟨s1, true, true⟩

/-- The coroutine body `Scheduler._one_shot_task`, run to completion. The
sleep ends at `when_dt_utc`, so that instant is also the completion
timestamp. Note the `finally: self._one_shot_tasks.pop(task_id, None)` runs
on every path except the early `return` of the rejected-past guard. -/
def one_shot_task (s : Scheduler) (task_id : String) (when_dt_utc now : Nat)
    (cancelledDuringSleep : Bool) (actionRaises : Bool) :
    Scheduler × OneShotResult :=
  if when_dt_utc < now then
    ({ s with events := s.events ++ [Event.one_shot_rejected_past task_id] },
     OneShotResult.rejected_past)
  else
    let s := { s with events := s.events ++ [Event.one_shot_scheduled task_id] }
    if cancelledDuringSleep then
      let s := { s with events := s.events ++ [Event.one_shot_cancelled task_id] }
      ({ s with one_shot_tasks := tableRemove s.one_shot_tasks task_id },
       OneShotResult.cancelled_during_sleep)
    else if containsKey s.one_shot_tasks task_id = false then
      let s := { s with events := s.events ++ [Event.one_shot_cancelled_before_run task_id] }
      ({ s with one_shot_tasks := tableRemove s.one_shot_tasks task_id },
       OneShotResult.cancelled_before_run)
    else
      let s := { s with events := s.events ++ [Event.one_shot_executing task_id] }
      if actionRaises then
        let s := { s with events := s.events ++ [Event.one_shot_error task_id] }
        ({ s with one_shot_tasks := tableRemove s.one_shot_tasks task_id },
         OneShotResult.raised)
      else
        let s := { s with events := s.events ++ [Event.one_shot_completed task_id] }
        let s := update_task_status s task_id "completed" (some when_dt_utc) when_dt_utc
        ({ s with one_shot_tasks := tableRemove s.one_shot_tasks task_id },
         OneShotResult.completed)

/-- `Scheduler._schedule_one_shot_in_memory`: arm a fresh timer under
`task_id` without touching persistence. -/
def schedule_one_shot_in_memory (s : Scheduler) (task_id : String)
    (when_dt_utc : Nat) (nm : Option String) : Scheduler :=
  let _ := when_dt_utc
  let _ := nm
  let tid := s.nextTimerId
  { s with one_shot_tasks := tableInsert s.one_shot_tasks task_id tid,
           nextTimerId := tid + 1,
           events := s.events ++ [Event.timer_armed tid] }

/-- `Scheduler.schedule_at`. The `uuid.uuid4()` call is modelled by the
caller-supplied fresh `task_id` (generated before the validation, exactly as
in the source). Returns the post-call state paired with the Python result:
`Except.error` models the raised `ValueError`, which occurs before any arming
or persistence, leaving the state unchanged. -/
def schedule_at (s : Scheduler) (now when_dt_utc : Nat) (task_id : String)
    (nm : Option String) (handler_type : Option String)
    (parameters_json : Option String) : Scheduler × Except String String :=
  if when_dt_utc < now then
    (s, Except.error "Cannot schedule task in the past")
  else
    let s1 := schedule_one_shot_in_memory s task_id when_dt_utc nm
    let s2 := save_one_shot_task s1 task_id when_dt_utc nm handler_type parameters_json
    (s2, Except.ok task_id)

/-- `Scheduler.restore_one_shot_in_memory`: no-op when the id is already
armed in memory, otherwise arm without any DB insert. -/
def restore_one_shot_in_memory (s : Scheduler) (task_id : String)
    (when_dt_utc : Nat) (nm : Option String) : Scheduler :=
  if containsKey s.one_shot_tasks task_id then s
  else schedule_one_shot_in_memory s task_id when_dt_utc nm

/-- One iteration of the `while` loop in `Scheduler._cron_loop`. A malformed
expression makes `croniter(...)` raise with no handler in scope, killing the
task (`crashed`). The best-effort persistence writes are the two inner
`try/except` blocks. Delivery of a `CancelledError` while sleeping simply
stops iteration and is modelled at the run level by the iteration list
ending. -/
def cron_loop_step (env : CronEnv) (s : Scheduler)
    (task_id cron_expression timezone_name handler_type : String)
    (now : Nat) (actionRaises : Bool) : Scheduler × CronStepResult :=
  if s.cancelled then (s, CronStepResult.exited)
  else
    match env.cronNext cron_expression timezone_name now with
    | none => (s, CronStepResult.crashed)
    | some next_utc =>
        let s := if s.enable_persistence
                 then { s with db := dbSetNextRun s.db task_id next_utc now }
                 else s
        let fireNow := max now next_utc
        if containsKey s.restore_handlers handler_type = false then
          ({ s with events := s.events ++ [Event.cron_handler_missing task_id] },
           CronStepResult.continued false fireNow)
        else
          let s := { s with events := s.events ++ [Event.cron_executing task_id] }
          let creationRaises := match lookupKey s.restore_handlers handler_type with
            | some h => h.creationRaises
            | none => false
          if creationRaises || actionRaises then
            ({ s with events := s.events ++ [Event.cron_error task_id] },
             CronStepResult.continued true fireNow)
          else
            let s := if s.enable_persistence
                     then { s with db := dbSetLastRun s.db task_id fireNow }
                     else s
            ({ s with events := s.events ++ [Event.cron_completed task_id] },
             CronStepResult.continued true fireNow)

/-- Iterated `Scheduler._cron_loop`: run one loop iteration per entry of
`iters`, threading the clock. Returns the final state, the list of
`(iterationStartClock, fireInstant)` pairs for the iterations that attempted
an execution, and whether the loop crashed on a malformed expression. -/
def cron_loop_run (env : CronEnv) (s : Scheduler)
    (task_id cron_expression timezone_name handler_type : String)
    (now : Nat) (iters : List CronIter) :
    Scheduler × List (Nat × Nat) × Bool :=
  match iters with
  | [] => (s, [], false)
  | it :: rest =>
      let step := cron_loop_step env s task_id cron_expression timezone_name
        handler_type now it.actionRaises
      match step.2 with
      | CronStepResult.exited => (step.1, [], false)
      | CronStepResult.crashed => (step.1, [], true)
      | CronStepResult.continued fired newNow =>
          let r := cron_loop_run env step.1 task_id cron_expression
            timezone_name handler_type (newNow + it.gap) rest
          (r.1, (if fired then [(now, newNow)] else []) ++ r.2.1, r.2.2)

/-- `Scheduler.schedule_cron`: cancel any existing cron timer under
`task_id`, precompute the next occurrence inside a `try/except` that maps a
`croniter` failure to `None`, persist (when `persist`), then arm the loop
task unconditionally. -/
def schedule_cron (env : CronEnv) (s : Scheduler)
    (task_id cron_expression timezone_name handler_type : String)
    (parameters_json : Option String) (nm : Option String) (persist : Bool)
    (now : Nat) : Scheduler :=
  let s1 := match lookupKey s.cron_tasks task_id with
    | some tid =>
        let sA := { s with cancelledTimers := s.cancelledTimers ++ [tid],
                           events := s.events ++ [Event.timer_cancelled tid],
                           cron_tasks := tableRemove s.cron_tasks task_id }
        if persist then update_task_status sA task_id "cancelled" none now else sA
    | none => s
  let next_run_utc : Option Nat := env.cronNext cron_expression timezone_name now
  let s2 := if persist then
      save_cron_task s1 task_id cron_expression timezone_name nm
        (some handler_type) parameters_json next_run_utc now
    else s1
  let tid := s2.nextTimerId
  let s3 := { s2 with cron_tasks := tableInsert s2.cron_tasks task_id tid,
                      nextTimerId := tid + 1,
                      events := s2.events ++ [Event.timer_armed tid] }
  { s3 with events := s3.events ++ [Event.cron_scheduled task_id] }

/-- `Scheduler.cancel_one_shot_task`. -/
def cancel_one_shot_task (s : Scheduler) (task_id : String) (now : Nat) :
    Scheduler × Bool :=
  match lookupKey s.one_shot_tasks task_id with
  | some tid =>
      let s1 := { s with cancelledTimers := s.cancelledTimers ++ [tid],
                         events := s.events ++ [Event.timer_cancelled tid],
                         one_shot_tasks := tableRemove s.one_shot_tasks task_id }
      let s2 := update_task_status s1 task_id "cancelled" none now
      ({ s2 with events := s2.events ++ [Event.one_shot_cancelled task_id] }, true)
  | none => (s, false)

/-- `Scheduler.cancel_task`: try the one-shot table, then the periodic table.
The source consults no other table. -/
def cancel_task (s : Scheduler) (task_id : String) (now : Nat) :
    Scheduler × Bool :=
  let r := cancel_one_shot_task s task_id now
  if r.2 then r
  else if containsKey r.1.tasks task_id then
    (cancel_periodic_task r.1 task_id now, true)
  else (r.1, false)

/-- `Scheduler.cancel_all`: set the `_cancelled` flag, then cancel and clear
each of the three tables in turn (optionally marking each durable row
`cancelled`). -/
def cancel_all (s : Scheduler) (persist_db : Bool) (now : Nat) : Scheduler :=
  let s := { s with cancelled := true }
  let s := s.tasks.foldl
    (fun acc p =>
      let acc := { acc with cancelledTimers := acc.cancelledTimers ++ [p.2],
                            events := acc.events ++ [Event.timer_cancelled p.2] }
      if persist_db then update_task_status acc p.1 "cancelled" none now else acc)
    s
  let s := { s with tasks := [] }
  let s := s.one_shot_tasks.foldl
    (fun acc p =>
      let acc := { acc with cancelledTimers := acc.cancelledTimers ++ [p.2],
                            events := acc.events ++ [Event.timer_cancelled p.2] }
      if persist_db then update_task_status acc p.1 "cancelled" none now else acc)
    s
  let s := { s with one_shot_tasks := [] }
  let s := s.cron_tasks.foldl
    (fun acc p =>
      let acc := { acc with cancelledTimers := acc.cancelledTimers ++ [p.2],
                            events := acc.events ++ [Event.timer_cancelled p.2] }
      if persist_db then update_task_status acc p.1 "cancelled" none now else acc)
    s
  let s := { s with cron_tasks := [] }
  { s with events := s.events ++ [Event.all_tasks_cancelled] }

/-- `Scheduler.load_pending_tasks`: the three `scheduled`-status queries; the
one-shot query additionally requires `scheduled_for > now` (a SQL comparison
against NULL excludes the row). -/
def load_pending_tasks (s : Scheduler) (now : Nat) : LoadedTasks :=
  if s.enable_persistence = false then ⟨[], [], []⟩
  else
    { periodic := s.db.filter
        (fun r => r.task_type == "periodic" && r.status == "scheduled")
      one_shot := s.db.filter
        (fun r => r.task_type == "one_shot" && r.status == "scheduled" &&
          (match r.scheduled_for with
           | some t => decide (now < t)
           | none => false))
      cron := s.db.filter
        (fun r => r.task_type == "cron" && r.status == "scheduled") }

/-- Body of the periodic-restoration loop in
`Scheduler.restore_pending_tasks`: restoration is always skipped (a periodic
task needs a live callable), and nothing in the body can raise. -/
def restore_periodic_step (acc : Scheduler × RestoreSummary) (r : TaskRow) :
    Scheduler × RestoreSummary :=
  ({ acc.1 with events := acc.1.events ++ [Event.periodic_task_restore_skipped r.task_id] },
   acc.2)

/-- Body of the one-shot-restoration loop in
`Scheduler.restore_pending_tasks`: skip when no resolvable handler; invoke the
factory (a raise lands in the per-task `except`, counting a failure with an
error string); parse `scheduled_for` (a missing value raises at the
comparison, same `except`); then restore in memory if still future at
`run_now`, else mark the row `completed`. -/
def restore_one_shot_step (run_now : Nat) (acc : Scheduler × RestoreSummary)
    (r : TaskRow) : Scheduler × RestoreSummary :=
  let s := acc.1
  let sum := acc.2
  match r.handler_type with
  | none =>
      ({ s with events := s.events ++ [Event.one_shot_task_restore_skipped r.task_id] }, sum)
  | some ht =>
      match lookupKey s.restore_handlers ht with
      | none =>
          ({ s with events := s.events ++ [Event.one_shot_task_restore_skipped r.task_id] }, sum)
      | some h =>
          if h.creationRaises then
            ({ s with events := s.events ++ [Event.task_restore_error r.task_id] },
             { sum with failed := sum.failed + 1,
                        errors := sum.errors ++
                          ["One-shot task " ++ r.task_id ++ ": handler error"] })
          else
            match r.scheduled_for with
            | none =>
                ({ s with events := s.events ++ [Event.task_restore_error r.task_id] },
                 { sum with failed := sum.failed + 1,
                            errors := sum.errors ++
                              ["One-shot task " ++ r.task_id ++ ": bad scheduled_for"] })
            | some t =>
                if run_now < t then
                  let s := restore_one_shot_in_memory s r.task_id t r.name
                  ({ s with events := s.events ++ [Event.one_shot_task_restored r.task_id] },
                   { sum with one_shot := sum.one_shot + 1 })
                else
                  let s := update_task_status s r.task_id "completed" (some run_now) run_now
                  ({ s with events := s.events ++ [Event.one_shot_task_expired r.task_id] },
                   sum)

/-- Body of the cron-restoration loop in `Scheduler.restore_pending_tasks`:
skip without expression or resolvable handler, otherwise re-register through
`schedule_cron` with persistence suppressed. The source then executes
`restored["periodic"] += 0` and `restored["one_shot"] += 0` — the summary is
unchanged by a successful cron restoration. -/
def restore_cron_step (env : CronEnv) (run_now : Nat)
    (acc : Scheduler × RestoreSummary) (r : TaskRow) :
    Scheduler × RestoreSummary :=
  let s := acc.1
  let sum := acc.2
  match r.cron_expression with
  | none =>
      ({ s with events := s.events ++ [Event.cron_task_restore_skipped r.task_id] }, sum)
  | some expr =>
      match r.handler_type with
      | none =>
          ({ s with events := s.events ++ [Event.cron_task_restore_skipped r.task_id] }, sum)
      | some ht =>
          if containsKey s.restore_handlers ht = false then
            ({ s with events := s.events ++ [Event.cron_task_restore_skipped r.task_id] }, sum)
          else
            let tzName := match r.timezone_name with
              | some z => z
              | none => "UTC"
            let s := schedule_cron env s r.task_id expr tzName ht
              r.parameters_json r.name false run_now
            ({ s with events := s.events ++ [Event.cron_task_restored r.task_id] }, sum)

/-- `Scheduler.restore_pending_tasks`: load the pending rows (`load_now` is
the clock read inside the query), then process the periodic, one-shot and
cron lists in order (`run_now` is the clock read inside the loops). -/
def restore_pending_tasks (env : CronEnv) (s : Scheduler)
    (load_now run_now : Nat) : Scheduler × RestoreSummary :=
  let pending := load_pending_tasks s load_now
  let acc0 : Scheduler × RestoreSummary := (s, ⟨0, 0, 0, []⟩)
  let acc1 := pending.periodic.foldl restore_periodic_step acc0
  let acc2 := pending.one_shot.foldl (restore_one_shot_step run_now) acc1
  let acc3 := pending.cron.foldl (restore_cron_step env run_now) acc2
  ({ acc3.1 with events := acc3.1.events ++ [Event.tasks_restored] }, acc3.2)

/-- `Scheduler.get_status` (the event-loop liveness is external and passed
in; each table contributes its keys and size). -/
def get_status (s : Scheduler) (loop_running : Bool) : StatusSnapshot :=
  { running := loop_running
    cancelled := s.cancelled
    periodic_names := s.tasks.map (fun p => p.1)
    one_shot_ids := s.one_shot_tasks.map (fun p => p.1)
    periodic_count := s.tasks.length
    one_shot_count := s.one_shot_tasks.length }

end Scheduler

/-! Helper lemmas about the table and row-list primitives. -/

theorem lookupKey_tableInsert_self {β : Type} (t : List (String × β)) (k : String) (v : β) :
    lookupKey (tableInsert t k v) k = some v := by
  simp [tableInsert, lookupKey]

theorem lookupKey_tableInsert_ne {β : Type} (t : List (String × β)) (k k' : String) (v : β)
    (h : k' ≠ k) : lookupKey (tableInsert t k v) k' = lookupKey t k' := by
  simp only [tableInsert, lookupKey]
  rw [if_neg (by exact fun hk => h hk.symm)]
  induction t with
  | nil => rfl
  | cons x xs ih =>
      by_cases hx : x.1 = k
      · have : (x.1 != k) = false := by simp [hx]
        simp only [List.filter, this, lookupKey]
        rw [ih, if_neg (by rw [hx]; exact fun hk => h hk.symm)]
      · have : (x.1 != k) = true := by simp [hx]
        simp only [List.filter, this, lookupKey]
        by_cases hx' : x.1 = k'
        · simp [hx']
        · simp only [if_neg hx']
          exact ih

theorem lookupKey_tableRemove_self {β : Type} (t : List (String × β)) (k : String) :
    lookupKey (tableRemove t k) k = none := by
  induction t with
  | nil => rfl
  | cons x xs ih =>
      by_cases hx : x.1 = k
      · have : (x.1 != k) = false := by simp [hx]
        simpa [tableRemove, List.filter, this] using ih
      · have : (x.1 != k) = true := by simp [hx]
        simpa [tableRemove, List.filter, this, lookupKey, hx] using ih

theorem containsKey_eq_isSome {β : Type} (t : List (String × β)) (k : String) :
    containsKey t k = (lookupKey t k).isSome := by
  induction t with
  | nil => rfl
  | cons x xs ih =>
      by_cases hx : x.1 = k
      · simp [containsKey, lookupKey, hx]
      · have hb : (x.1 == k) = false := by simp [hx]
        simpa [containsKey, lookupKey, hx, hb] using ih

theorem containsKey_tableRemove_self {β : Type} (t : List (String × β)) (k : String) :
    containsKey (tableRemove t k) k = false := by
  rw [containsKey_eq_isSome, lookupKey_tableRemove_self]
  rfl

theorem containsKey_tableInsert_self {β : Type} (t : List (String × β)) (k : String) (v : β) :
    containsKey (tableInsert t k v) k = true := by
  rw [containsKey_eq_isSome, lookupKey_tableInsert_self]
  rfl

theorem countKey_tableInsert_self {β : Type} (t : List (String × β)) (k : String) (v : β) :
    countKey (tableInsert t k v) k = 1 := by
  have hnil : (t.filter (fun p => p.1 != k)).filter (fun p => p.1 == k) = [] := by
    rw [List.filter_eq_nil_iff]
    intro p hp
    have := (List.mem_filter.mp hp).2
    simp only [bne_iff_ne, ne_eq] at this
    simp [this]
  simp [countKey, tableInsert, List.filter, hnil]

theorem containsKey_iff_mem_map {β : Type} (t : List (String × β)) (k : String) :
    containsKey t k = true ↔ k ∈ t.map (fun p => p.1) := by
  simp only [containsKey, List.any_eq_true, List.mem_map, beq_iff_eq]

theorem updateFirst_length {α : Type} (p : α → Bool) (f : α → α) (l : List α) :
    (updateFirst p f l).length = l.length := by
  induction l with
  | nil => rfl
  | cons x xs ih =>
      simp only [updateFirst]
      by_cases h : p x = true
      · simp [h]
      · simp [h, ih]

theorem mem_updateFirst_of_not_p {α : Type} (p : α → Bool) (f : α → α) (l : List α)
    (r : α) (hr : r ∈ l) (hp : p r = false) : r ∈ updateFirst p f l := by
  induction l with
  | nil => cases hr
  | cons x xs ih =>
      simp only [updateFirst]
      rcases List.mem_cons.mp hr with h | h
      · subst h
        simp [hp]
      · by_cases hx : p x = true
        · simp [hx, h]
        · simp only [hx, if_false]
          exact List.mem_cons_of_mem x (ih h)

theorem updateFirst_mem_unique {α : Type} (p : α → Bool) (f : α → α) (l : List α)
    (r : α) (hr : r ∈ l) (hp : p r = true)
    (huniq : ∀ x ∈ l, p x = true → x = r) : f r ∈ updateFirst p f l := by
  induction l with
  | nil => cases hr
  | cons x xs ih =>
      simp only [updateFirst]
      by_cases hx : p x = true
      · have : x = r := huniq x (List.mem_cons_self x xs) hx
        subst this
        simp [hx]
      · have hxr : r ≠ x := fun h => by rw [h] at hp; exact absurd hp (by simp [hx])
        have hr' : r ∈ xs := by
          rcases List.mem_cons.mp hr with h | h
          · exact absurd h hxr
          · exact h
        simp only [hx, if_false]
        exact List.mem_cons_of_mem x
          (ih hr' (fun y hy => huniq y (List.mem_cons_of_mem x hy)))

theorem dbUpdateStatus_length (db : List TaskRow) (task_id status : String)
    (c : Option Nat) (now : Nat) :
    (dbUpdateStatus db task_id status c now).length = db.length :=
  updateFirst_length _ _ db

/-- A freshly constructed scheduler with persistence enabled
(`Scheduler(enable_persistence=True)`). -/
def s_empty : Scheduler := {}

/-- C2 counterexample input: a one-shot request at exactly the current
instant (`instant = now = 5`). -/
theorem C2_counterexample :
    (Scheduler.schedule_at s_empty 5 5 "t" none none none).2 = Except.ok "t"
    ∧ containsKey (Scheduler.schedule_at s_empty 5 5 "t" none none
        none).1.one_shot_tasks "t" = true
    ∧ (Scheduler.schedule_at s_empty 5 5 "t" none none none).1.db.length = 1 := by
  exact ⟨rfl, rfl, rfl⟩

/-- C2 (amended): `schedule_at` fails (with the state unchanged, so no
durable row and no armed timer) exactly when the instant is strictly before
`now`; an instant equal to `now` is admitted, armed in memory, and persisted
as a `scheduled` row. -/
theorem C2_amended (s : Scheduler) (now when_dt_utc : Nat) (task_id : String)
    (nm handler_type parameters_json : Option String) :
    (when_dt_utc < now →
      Scheduler.schedule_at s now when_dt_utc task_id nm handler_type parameters_json
        = (s, Except.error "Cannot schedule task in the past"))
    ∧ (now ≤ when_dt_utc →
      (Scheduler.schedule_at s now when_dt_utc task_id nm handler_type
          parameters_json).2 = Except.ok task_id
      ∧ containsKey (Scheduler.schedule_at s now when_dt_utc task_id nm handler_type
          parameters_json).1.one_shot_tasks task_id = true
      ∧ (s.enable_persistence = true →
          (Scheduler.schedule_at s now when_dt_utc task_id nm handler_type
            parameters_json).1.db
            = s.db ++ [{ task_id := task_id, task_type := "one_shot",
                         status := "scheduled", name := nm,
                         scheduled_for := some when_dt_utc,
                         handler_type := handler_type,
                         parameters_json := parameters_json }])) := by
  constructor
  · intro h
    simp [Scheduler.schedule_at, h]
  · intro h
    have hlt : ¬ when_dt_utc < now := Nat.not_lt.mpr h
    refine ⟨?_, ?_, ?_⟩
    · simp [Scheduler.schedule_at, hlt]
    · by_cases hp : s.enable_persistence
      · simp [Scheduler.schedule_at, hlt, Scheduler.save_one_shot_task, hp,
              Scheduler.schedule_one_shot_in_memory, containsKey_tableInsert_self]
      · simp [Scheduler.schedule_at, hlt, Scheduler.save_one_shot_task, hp,
              Scheduler.schedule_one_shot_in_memory, containsKey_tableInsert_self]
    · intro hp
      simp [Scheduler.schedule_at, hlt, Scheduler.save_one_shot_task, hp,
            Scheduler.schedule_one_shot_in_memory, dbInsertOneShot]

/-- C2 witness: both directions of the amended statement evaluated on
concrete instants (3 < 5 rejected with state unchanged; 5 ≤ 7 admitted). -/
theorem C2_witness :
    Scheduler.schedule_at s_empty 5 3 "e1" none none none
      = (s_empty, Except.error "Cannot schedule task in the past")
    ∧ (Scheduler.schedule_at s_empty 5 7 "t2" none none none).2 = Except.ok "t2" := by
  exact ⟨(C2_amended s_empty 5 3 "e1" none none none).1 (by decide),
         ((C2_amended s_empty 5 7 "t2" none none none).2 (by decide)).1⟩

/-- C10: whenever the one-shot coroutine body actually starts (its fire
instant has not silently slipped into the past, `now ≤ when`), every way it
can finish — action executed, action raised, `CancelledError` during the
sleep, or cancelled-before-run — ends with the task id removed from the
in-memory one-shot table, so `get_status` does not list it. -/
theorem C10_finished_one_shot_not_listed (s : Scheduler) (task_id : String)
    (when_dt_utc now : Nat) (cancelledDuringSleep actionRaises : Bool)
    (h : now ≤ when_dt_utc) :
    containsKey (Scheduler.one_shot_task s task_id when_dt_utc now
        cancelledDuringSleep actionRaises).1.one_shot_tasks task_id = false
    ∧ task_id ∉ (Scheduler.get_status (Scheduler.one_shot_task s task_id
        when_dt_utc now cancelledDuringSleep actionRaises).1 true).one_shot_ids := by
  have hlt : ¬ when_dt_utc < now := Nat.not_lt.mpr h
  have hkey : containsKey (Scheduler.one_shot_task s task_id when_dt_utc now
      cancelledDuringSleep actionRaises).1.one_shot_tasks task_id = false := by
    unfold Scheduler.one_shot_task
    rw [if_neg hlt]
    by_cases h1 : cancelledDuringSleep = true
    · simp [h1, containsKey_tableRemove_self]
    · by_cases h2 : containsKey s.one_shot_tasks task_id = false
      · simp [h1, h2, containsKey_tableRemove_self]
      · by_cases h3 : actionRaises = true
        · simp [h1, h2, h3, containsKey_tableRemove_self]
        · by_cases hp : s.enable_persistence = true
          · simp [h1, h2, h3, hp, Scheduler.update_task_status,
                  containsKey_tableRemove_self]
          · simp [h1, h2, h3, hp, Scheduler.update_task_status,
                  containsKey_tableRemove_self]
  refine ⟨hkey, ?_⟩
  intro hmem
  have := (containsKey_iff_mem_map _ _).mpr hmem
  rw [hkey] at this
  cases this

/-- A scheduler with one armed one-shot timer (id `t1`, timer handle 0). -/
def s_one_armed : Scheduler := { one_shot_tasks := [("t1", 0)], nextTimerId := 1 }

/-- C10 witness: a concrete one-shot that executes at its instant is gone
from the table and from `get_status`. -/
theorem C10_witness :
    containsKey (Scheduler.one_shot_task s_one_armed "t1" 5 5
        false false).1.one_shot_tasks "t1" = false
    ∧ "t1" ∉ (Scheduler.get_status (Scheduler.one_shot_task s_one_armed "t1" 5 5
        false false).1 true).one_shot_ids :=
  C10_finished_one_shot_not_listed s_one_armed "t1" 5 5 false false (Nat.le_refl 5)

/-- A scheduler whose only armed timer is the cron task `c1`. -/
def s_cron_only : Scheduler := { cron_tasks := [("c1", 7)], nextTimerId := 8 }

/-- C7 counterexample: `cancel_task` on an id armed only in the cron table
returns `false`, leaves the whole state (including the armed cron timer)
untouched, and marks nothing cancelled — the lookup never reaches the cron
table. -/
theorem C7_counterexample :
    (Scheduler.cancel_task s_cron_only "c1" 0).2 = false
    ∧ (Scheduler.cancel_task s_cron_only "c1" 0).1 = s_cron_only := by
  exact ⟨rfl, rfl⟩

/-- C7 (amended): `cancel_task` probes the one-shot table, then the periodic
table, and no other table. On a hit it cancels the timer, removes the
in-memory entry, marks the durable row `cancelled` and returns `true`; when
the id is in neither of those two tables (even if armed in the cron table) it
returns `false` without modifying anything, so a second cancel of the same id
returns `false` and does not throw. -/
theorem C7_amended (s : Scheduler) (task_id : String) (now now2 : Nat) :
    (∀ tid, lookupKey s.one_shot_tasks task_id = some tid →
      (Scheduler.cancel_task s task_id now).2 = true
      ∧ containsKey (Scheduler.cancel_task s task_id now).1.one_shot_tasks task_id = false
      ∧ tid ∈ (Scheduler.cancel_task s task_id now).1.cancelledTimers
      ∧ (Scheduler.cancel_task s task_id now).1.db
          = (if s.enable_persistence then
               dbUpdateStatus s.db task_id "cancelled" none now else s.db))
    ∧ (∀ tid, lookupKey s.one_shot_tasks task_id = none →
        lookupKey s.tasks task_id = some tid →
      (Scheduler.cancel_task s task_id now).2 = true
      ∧ containsKey (Scheduler.cancel_task s task_id now).1.tasks task_id = false
      ∧ tid ∈ (Scheduler.cancel_task s task_id now).1.cancelledTimers
      ∧ (Scheduler.cancel_task s task_id now).1.db
          = (if s.enable_persistence then
               dbUpdateStatus s.db task_id "cancelled" none now else s.db))
    ∧ (lookupKey s.one_shot_tasks task_id = none →
        containsKey s.tasks task_id = false →
      Scheduler.cancel_task s task_id now = (s, false))
    ∧ (∀ tid, lookupKey s.one_shot_tasks task_id = some tid →
        containsKey s.tasks task_id = false →
      (Scheduler.cancel_task (Scheduler.cancel_task s task_id now).1 task_id now2).2
        = false) := by
  refine ⟨?_, ?_, ?_, ?_⟩
  · intro tid h1
    have hck : containsKey s.one_shot_tasks task_id = true := by
      rw [containsKey_eq_isSome, h1]; rfl
    by_cases hp : s.enable_persistence = true
    · simp [Scheduler.cancel_task, Scheduler.cancel_one_shot_task, h1, hp,
            Scheduler.update_task_status, containsKey_tableRemove_self]
    · simp [Scheduler.cancel_task, Scheduler.cancel_one_shot_task, h1, hp,
            Scheduler.update_task_status, containsKey_tableRemove_self]
  · intro tid h1 h2
    have hck : containsKey s.tasks task_id = true := by
      rw [containsKey_eq_isSome, h2]; rfl
    by_cases hp : s.enable_persistence = true
    · simp [Scheduler.cancel_task, Scheduler.cancel_one_shot_task, h1, h2, hck,
            Scheduler.cancel_periodic_task, Scheduler.update_task_status, hp,
            containsKey_tableRemove_self]
    · simp [Scheduler.cancel_task, Scheduler.cancel_one_shot_task, h1, h2, hck,
            Scheduler.cancel_periodic_task, Scheduler.update_task_status, hp,
            containsKey_tableRemove_self]
  · intro h1 h2
    simp [Scheduler.cancel_task, Scheduler.cancel_one_shot_task, h1, h2]
  · intro tid h1 h2
    have hfst : (Scheduler.cancel_task s task_id now).1.one_shot_tasks
        = tableRemove s.one_shot_tasks task_id := by
      by_cases hp : s.enable_persistence = true <;>
        simp [Scheduler.cancel_task, Scheduler.cancel_one_shot_task, h1, hp,
              Scheduler.update_task_status]
    have htasks : (Scheduler.cancel_task s task_id now).1.tasks = s.tasks := by
      by_cases hp : s.enable_persistence = true <;>
        simp [Scheduler.cancel_task, Scheduler.cancel_one_shot_task, h1, hp,
              Scheduler.update_task_status]
    generalize hgen : (Scheduler.cancel_task s task_id now).1 = s1 at hfst htasks ⊢
    have h1' : lookupKey s1.one_shot_tasks task_id = none := by
      rw [hfst, lookupKey_tableRemove_self]
    have h2' : containsKey s1.tasks task_id = false := by rw [htasks]; exact h2
    simp [Scheduler.cancel_task, Scheduler.cancel_one_shot_task, h1', h2']

/-- A scheduler with an armed one-shot timer and an armed periodic timer. -/
def s_two_timers : Scheduler :=
  { one_shot_tasks := [("os1", 0)], tasks := [("p1", 1)], nextTimerId := 2 }

/-- C7 witness: concrete hits in the one-shot and periodic tables, a miss,
and a double cancel, all through the amended theorem. -/
theorem C7_witness :
    (Scheduler.cancel_task s_two_timers "os1" 3).2 = true
    ∧ (Scheduler.cancel_task s_two_timers "p1" 3).2 = true
    ∧ Scheduler.cancel_task s_two_timers "nope" 3 = (s_two_timers, false)
    ∧ (Scheduler.cancel_task (Scheduler.cancel_task s_two_timers "os1" 3).1
        "os1" 4).2 = false := by
  refine ⟨((C7_amended s_two_timers "os1" 3 4).1 0 rfl).1,
          (((C7_amended s_two_timers "p1" 3 4).2.1) 1 rfl rfl).1,
          (C7_amended s_two_timers "nope" 3 4).2.2.1 rfl rfl,
          (C7_amended s_two_timers "os1" 3 4).2.2.2 0 rfl rfl⟩

theorem updateFirst_exists {α : Type} (p : α → Bool) (f : α → α) (l : List α)
    (h : l.any p = true) : ∃ y, p y = true ∧ f y ∈ updateFirst p f l := by
  induction l with
  | nil => simp at h
  | cons x xs ih =>
      by_cases hx : p x = true
      · exact ⟨x, hx, by simp [updateFirst, hx]⟩
      · have h' : xs.any p = true := by simpa [hx] using h
        obtain ⟨y, hy, hmem⟩ := ih h'
        refine ⟨y, hy, ?_⟩
        simp only [updateFirst, hx, if_false]
        exact List.mem_cons_of_mem x hmem

theorem dbUpsertPeriodic_exists (db : List TaskRow) (nm : String) (i : Nat)
    (ht pj : Option String) (now : Nat) :
    ∃ r, r ∈ dbUpsertPeriodic db nm i ht pj now
      ∧ r.task_id = nm ∧ r.status = "scheduled" ∧ r.interval_seconds = some i := by
  unfold dbUpsertPeriodic
  by_cases h : db.any (fun r => r.task_id == nm) = true
  · obtain ⟨y, hy, hmem⟩ := updateFirst_exists (fun r => r.task_id == nm)
      (fun r =>
        { r with
          task_type := "periodic"
          name := some nm
          status := "scheduled"
          interval_seconds := some i
          handler_type := ht
          parameters_json := pj
          updated_at := some now }) db h
    refine ⟨{ y with
              task_type := "periodic"
              name := some nm
              status := "scheduled"
              interval_seconds := some i
              handler_type := ht
              parameters_json := pj
              updated_at := some now }, ?_, ?_, rfl, rfl⟩
    · rw [if_pos h]; exact hmem
    · simpa using hy
  · refine ⟨{ task_id := nm, task_type := "periodic", status := "scheduled",
              name := some nm, interval_seconds := some i, handler_type := ht,
              parameters_json := pj }, ?_, rfl, rfl, rfl⟩
    rw [if_neg h]
    exact List.mem_append_right _ (List.mem_singleton_self _)

theorem schedule_periodic_tasks (s : Scheduler) (nm : String) (i : Nat)
    (ht pj : Option String) (now : Nat) :
    (Scheduler.schedule_periodic s nm i ht pj now).tasks
      = tableInsert s.tasks nm s.nextTimerId := by
  unfold Scheduler.schedule_periodic
  cases hl : lookupKey s.tasks nm with
  | none =>
      by_cases hp : s.enable_persistence = true <;>
        simp [hl, Scheduler.save_periodic_task, Scheduler.update_task_status, hp]
  | some tid =>
      by_cases hp : s.enable_persistence = true <;>
        simp [hl, Scheduler.save_periodic_task, Scheduler.update_task_status, hp]

theorem schedule_periodic_nextTimerId (s : Scheduler) (nm : String) (i : Nat)
    (ht pj : Option String) (now : Nat) :
    (Scheduler.schedule_periodic s nm i ht pj now).nextTimerId
      = s.nextTimerId + 1 := by
  unfold Scheduler.schedule_periodic
  cases hl : lookupKey s.tasks nm with
  | none =>
      by_cases hp : s.enable_persistence = true <;>
        simp [hl, Scheduler.save_periodic_task, Scheduler.update_task_status, hp]
  | some tid =>
      by_cases hp : s.enable_persistence = true <;>
        simp [hl, Scheduler.save_periodic_task, Scheduler.update_task_status, hp]

theorem schedule_periodic_persistence (s : Scheduler) (nm : String) (i : Nat)
    (ht pj : Option String) (now : Nat) :
    (Scheduler.schedule_periodic s nm i ht pj now).enable_persistence
      = s.enable_persistence := by
  unfold Scheduler.schedule_periodic
  cases hl : lookupKey s.tasks nm with
  | none =>
      by_cases hp : s.enable_persistence = true <;>
        simp [hl, Scheduler.save_periodic_task, Scheduler.update_task_status, hp]
  | some tid =>
      by_cases hp : s.enable_persistence = true <;>
        simp [hl, Scheduler.save_periodic_task, Scheduler.update_task_status, hp]

theorem schedule_periodic_events_replace (s : Scheduler) (nm : String) (i : Nat)
    (ht pj : Option String) (now : Nat) (tid : Nat)
    (hl : lookupKey s.tasks nm = some tid) :
    (Scheduler.schedule_periodic s nm i ht pj now).events
      = s.events ++ [Event.timer_cancelled tid, Event.timer_armed s.nextTimerId,
                     Event.task_scheduled nm] := by
  unfold Scheduler.schedule_periodic
  by_cases hp : s.enable_persistence = true <;>
    simp [hl, Scheduler.save_periodic_task, Scheduler.update_task_status, hp]

theorem schedule_periodic_cancelledTimers_replace (s : Scheduler) (nm : String)
    (i : Nat) (ht pj : Option String) (now : Nat) (tid : Nat)
    (hl : lookupKey s.tasks nm = some tid) :
    (Scheduler.schedule_periodic s nm i ht pj now).cancelledTimers
      = s.cancelledTimers ++ [tid] := by
  unfold Scheduler.schedule_periodic
  by_cases hp : s.enable_persistence = true <;>
    simp [hl, Scheduler.save_periodic_task, Scheduler.update_task_status, hp]

theorem schedule_periodic_db_persist (s : Scheduler) (nm : String) (i : Nat)
    (ht pj : Option String) (now : Nat) (hp : s.enable_persistence = true) :
    (Scheduler.schedule_periodic s nm i ht pj now).db
      = dbUpsertPeriodic
          (match lookupKey s.tasks nm with
           | some _ => dbUpdateStatus s.db nm "cancelled" none now
           | none => s.db)
          nm i ht pj now := by
  unfold Scheduler.schedule_periodic
  cases hl : lookupKey s.tasks nm with
  | none =>
      simp [hl, Scheduler.save_periodic_task, Scheduler.update_task_status, hp]
  | some tid =>
      simp [hl, Scheduler.save_periodic_task, Scheduler.update_task_status, hp]

/-- C8: registering a periodic task twice under the same name leaves exactly
one timer armed under that name (the second call's fresh timer); the second
registration cancels the first timer, and its event trace shows the
cancellation strictly before the arming of the replacement; when persistence
is on, the replacement is persisted as a `scheduled` row carrying the new
interval. -/
theorem C8_periodic_replace (s : Scheduler) (nm : String) (i1 i2 : Nat)
    (ht1 pj1 ht2 pj2 : Option String) (now1 now2 : Nat) :
    countKey (Scheduler.schedule_periodic s nm i1 ht1 pj1 now1).tasks nm = 1
    ∧ countKey (Scheduler.schedule_periodic
        (Scheduler.schedule_periodic s nm i1 ht1 pj1 now1) nm i2 ht2 pj2
        now2).tasks nm = 1
    ∧ lookupKey (Scheduler.schedule_periodic
        (Scheduler.schedule_periodic s nm i1 ht1 pj1 now1) nm i2 ht2 pj2
        now2).tasks nm
      = some (Scheduler.schedule_periodic s nm i1 ht1 pj1 now1).nextTimerId
    ∧ s.nextTimerId ∈ (Scheduler.schedule_periodic
        (Scheduler.schedule_periodic s nm i1 ht1 pj1 now1) nm i2 ht2 pj2
        now2).cancelledTimers
    ∧ (Scheduler.schedule_periodic
        (Scheduler.schedule_periodic s nm i1 ht1 pj1 now1) nm i2 ht2 pj2
        now2).events
      = (Scheduler.schedule_periodic s nm i1 ht1 pj1 now1).events
        ++ [Event.timer_cancelled s.nextTimerId,
            Event.timer_armed (Scheduler.schedule_periodic s nm i1 ht1 pj1
              now1).nextTimerId,
            Event.task_scheduled nm]
    ∧ (s.enable_persistence = true →
        ∃ r, r ∈ (Scheduler.schedule_periodic
            (Scheduler.schedule_periodic s nm i1 ht1 pj1 now1) nm i2 ht2 pj2
            now2).db
          ∧ r.task_id = nm ∧ r.status = "scheduled"
          ∧ r.interval_seconds = some i2) := by
  have h1tasks := schedule_periodic_tasks s nm i1 ht1 pj1 now1
  have hlook1 : lookupKey (Scheduler.schedule_periodic s nm i1 ht1 pj1
      now1).tasks nm = some s.nextTimerId := by
    rw [h1tasks]; exact lookupKey_tableInsert_self _ _ _
  refine ⟨?_, ?_, ?_, ?_, ?_, ?_⟩
  · rw [h1tasks]; exact countKey_tableInsert_self _ _ _
  · rw [schedule_periodic_tasks]; exact countKey_tableInsert_self _ _ _
  · rw [schedule_periodic_tasks]; exact lookupKey_tableInsert_self _ _ _
  · rw [schedule_periodic_cancelledTimers_replace _ _ _ _ _ _ _ hlook1]
    simp
  · exact schedule_periodic_events_replace _ _ _ _ _ _ _ hlook1
  · intro hp
    have hp1 : (Scheduler.schedule_periodic s nm i1 ht1 pj1
        now1).enable_persistence = true := by
      rw [schedule_periodic_persistence]; exact hp
    rw [schedule_periodic_db_persist _ _ _ _ _ _ hp1]
    exact dbUpsertPeriodic_exists _ _ _ _ _ _

/-- C8 witness: the double registration evaluated on a concrete scheduler. -/
theorem C8_witness :
    countKey (Scheduler.schedule_periodic
      (Scheduler.schedule_periodic s_empty "p" 10 none none 0) "p" 20 none none
      1).tasks "p" = 1
    ∧ (0 : Nat) ∈ (Scheduler.schedule_periodic
      (Scheduler.schedule_periodic s_empty "p" 10 none none 0) "p" 20 none none
      1).cancelledTimers
    ∧ (∃ r, r ∈ (Scheduler.schedule_periodic
        (Scheduler.schedule_periodic s_empty "p" 10 none none 0) "p" 20 none
        none 1).db
        ∧ r.task_id = "p" ∧ r.status = "scheduled"
        ∧ r.interval_seconds = some 20) := by
  refine ⟨(C8_periodic_replace s_empty "p" 10 20 none none none none 0 1).2.1,
          (C8_periodic_replace s_empty "p" 10 20 none none none none 0 1).2.2.2.1,
          (C8_periodic_replace s_empty "p" 10 20 none none none none 0
            1).2.2.2.2.2 rfl⟩

/-- A durable one-shot row in `scheduled` status for fire instant 5. -/
def rowScheduledOneShot : TaskRow :=
  { task_id := "t1", task_type := "one_shot", status := "scheduled",
    scheduled_for := some 5 }

/-- A scheduler with the row of `rowScheduledOneShot` persisted and its timer
armed in memory. -/
def s_armed_with_row : Scheduler :=
  { one_shot_tasks := [("t1", 0)], nextTimerId := 1, db := [rowScheduledOneShot] }

/-- C3 counterexample: a one-shot whose action raises is NOT marked
`completed` — the durable row keeps status `scheduled` — and the exception is
re-raised out of the coroutine (`OneShotResult.raised`), not swallowed. -/
theorem C3_counterexample :
    ((Scheduler.one_shot_task s_armed_with_row "t1" 5 5 false true).1.db.map
        TaskRow.status = ["scheduled"])
    ∧ (Scheduler.one_shot_task s_armed_with_row "t1" 5 5 false true).2
        = OneShotResult.raised := by
  exact ⟨rfl, rfl⟩

/-- C3 (amended): an exception from a periodic or cron action is caught and
logged and the timer remains armed for the next occurrence; but a one-shot
action's exception, although logged, is re-raised out of the task coroutine
and the durable row is left `scheduled` — it is not marked `completed` (the
in-memory entry is still removed). -/
theorem C3_amended (s : Scheduler) (nm : String)
    (env : CronEnv) (sc : Scheduler) (ctid expr tz ht : String)
    (cnow nxt : Nat) (so : Scheduler) (otid : String) (w n : Nat)
    (hsp : s.cancelled = false)
    (hscc : sc.cancelled = false)
    (hnext : env.cronNext expr tz cnow = some nxt)
    (hreg : containsKey sc.restore_handlers ht = true)
    (hw : n ≤ w)
    (hmem : containsKey so.one_shot_tasks otid = true) :
    ((Scheduler.periodic_task_step s nm true false).continues = true
      ∧ (Scheduler.periodic_task_step s nm true false).state.tasks = s.tasks
      ∧ (Scheduler.periodic_task_step s nm true false).state.events
          = s.events ++ [Event.task_error nm])
    ∧ ((Scheduler.cron_loop_step env sc ctid expr tz ht cnow true).2
        = CronStepResult.continued true (max cnow nxt)
      ∧ (Scheduler.cron_loop_step env sc ctid expr tz ht cnow true).1.cron_tasks
          = sc.cron_tasks)
    ∧ ((Scheduler.one_shot_task so otid w n false true).2 = OneShotResult.raised
      ∧ (Scheduler.one_shot_task so otid w n false true).1.db = so.db
      ∧ containsKey (Scheduler.one_shot_task so otid w n false
          true).1.one_shot_tasks otid = false) := by
  refine ⟨?_, ?_, ?_⟩
  · simp [Scheduler.periodic_task_step, hsp]
  · constructor
    · unfold Scheduler.cron_loop_step
      by_cases hp : sc.enable_persistence = true <;>
        simp [hscc, hnext, hreg, hp]
    · unfold Scheduler.cron_loop_step
      cases hlh : lookupKey sc.restore_handlers ht <;>
        by_cases hp : sc.enable_persistence = true <;>
          simp [hscc, hnext, hreg, hp, hlh]
  · have hlt : ¬ w < n := Nat.not_lt.mpr hw
    unfold Scheduler.one_shot_task
    simp [hlt, hmem, containsKey_tableRemove_self]

/-- A scheduler for the C3 witness: one armed cron timer with a registered
handler, plus the armed one-shot of `s_armed_with_row`. -/
def s_cron_handler : Scheduler :=
  { cron_tasks := [("c1", 0)], nextTimerId := 1,
    restore_handlers := [("h", ⟨false⟩)] }

/-- A cron environment in which every expression parses and the next
occurrence is one tick later. -/
def envTick : CronEnv := ⟨fun _ _ t => some (t + 1)⟩

/-- C3 witness: the amended statement evaluated on concrete schedulers. -/
theorem C3_witness :
    (Scheduler.periodic_task_step s_empty "p" true false).continues = true
    ∧ (Scheduler.cron_loop_step envTick s_cron_handler "c1" "* * * * *" "UTC"
        "h" 4 true).2 = CronStepResult.continued true 5
    ∧ (Scheduler.one_shot_task s_armed_with_row "t1" 5 5 false true).2
        = OneShotResult.raised
    ∧ (Scheduler.one_shot_task s_armed_with_row "t1" 5 5 false true).1.db
        = s_armed_with_row.db := by
  have h := C3_amended s_empty "p" envTick s_cron_handler "c1" "* * * * *"
    "UTC" "h" 4 5 s_armed_with_row "t1" 5 5 rfl rfl rfl rfl (Nat.le_refl 5) rfl
  exact ⟨h.1.1, h.2.1.1, h.2.2.1, h.2.2.2.1⟩

theorem dbUpsertCron_exists (db : List TaskRow) (task_id expr tz : String)
    (nm : Option String) (ht pj : Option String) (nxt : Option Nat)
    (now : Nat) :
    ∃ r, r ∈ dbUpsertCron db task_id expr tz nm ht pj nxt now
      ∧ r.task_id = task_id ∧ r.status = "scheduled"
      ∧ r.cron_expression = some expr ∧ r.next_run_at = nxt := by
  unfold dbUpsertCron
  by_cases h : db.any (fun r => r.task_id == task_id) = true
  · obtain ⟨y, hy, hmem⟩ := updateFirst_exists (fun r => r.task_id == task_id)
      (fun r =>
        { r with
          task_type := "cron"
          name := nm
          status := "scheduled"
          handler_type := ht
          parameters_json := pj
          cron_expression := some expr
          timezone_name := some tz
          next_run_at := nxt
          updated_at := some now }) db h
    refine ⟨{ y with
              task_type := "cron"
              name := nm
              status := "scheduled"
              handler_type := ht
              parameters_json := pj
              cron_expression := some expr
              timezone_name := some tz
              next_run_at := nxt
              updated_at := some now }, ?_, ?_, rfl, rfl, rfl⟩
    · rw [if_pos h]; exact hmem
    · simpa using hy
  · refine ⟨{ task_id := task_id, task_type := "cron", status := "scheduled",
              name := nm, handler_type := ht, parameters_json := pj,
              cron_expression := some expr, timezone_name := some tz,
              next_run_at := nxt }, ?_, rfl, rfl, rfl, rfl⟩
    rw [if_neg h]
    exact List.mem_append_right _ (List.mem_singleton_self _)

theorem schedule_cron_arms (env : CronEnv) (s : Scheduler)
    (task_id expr tz ht : String) (pj nm : Option String) (persist : Bool)
    (now : Nat) :
    containsKey (Scheduler.schedule_cron env s task_id expr tz ht pj nm
      persist now).cron_tasks task_id = true := by
  unfold Scheduler.schedule_cron
  cases hl : lookupKey s.cron_tasks task_id with
  | none =>
      by_cases hper : persist = true
      · by_cases hp : s.enable_persistence = true <;>
          simp [hl, hper, hp, Scheduler.save_cron_task,
                Scheduler.update_task_status, containsKey_tableInsert_self]
      · simp [hl, hper, containsKey_tableInsert_self]
  | some tid =>
      by_cases hper : persist = true
      · by_cases hp : s.enable_persistence = true <;>
          simp [hl, hper, hp, Scheduler.save_cron_task,
                Scheduler.update_task_status, containsKey_tableInsert_self]
      · simp [hl, hper, containsKey_tableInsert_self]

theorem schedule_cron_db_persist (env : CronEnv) (s : Scheduler)
    (task_id expr tz ht : String) (pj nm : Option String) (now : Nat)
    (hp : s.enable_persistence = true) :
    (Scheduler.schedule_cron env s task_id expr tz ht pj nm true now).db
      = dbUpsertCron
          (match lookupKey s.cron_tasks task_id with
           | some _ => dbUpdateStatus s.db task_id "cancelled" none now
           | none => s.db)
          task_id expr tz nm (some ht) pj (env.cronNext expr tz now) now := by
  unfold Scheduler.schedule_cron
  cases hl : lookupKey s.cron_tasks task_id with
  | none =>
      simp [hl, Scheduler.save_cron_task, Scheduler.update_task_status, hp]
  | some tid =>
      simp [hl, Scheduler.save_cron_task, Scheduler.update_task_status, hp]

/-- A cron environment in which the expression `bad` fails to parse
(`croniter` raises) and every other expression yields the next tick. -/
def envBad : CronEnv :=
  ⟨fun e _ t => if e = "bad" then none else some (t + 1)⟩

/-- C5 counterexample: `schedule_cron` with the unparsable expression `bad`
does not reject — it persists the task as a `scheduled` row (with
`next_run_at` empty, the parse failure having been swallowed) and arms a cron
timer in memory. -/
theorem C5_counterexample :
    ((Scheduler.schedule_cron envBad s_empty "c1" "bad" "UTC" "h" none none
        true 0).db.map (fun r => (r.task_id, r.status, r.next_run_at))
      = [("c1", "scheduled", none)])
    ∧ containsKey (Scheduler.schedule_cron envBad s_empty "c1" "bad" "UTC" "h"
        none none true 0).cron_tasks "c1" = true := by
  exact ⟨rfl, rfl⟩

/-- C5 (amended): a malformed recurrence expression is not rejected at
registration: `schedule_cron` swallows the evaluator's failure in its
best-effort next-occurrence precomputation, persists the task as a
`scheduled` row with no `next_run_at`, and arms the loop in memory; the error
is discovered at fire time, when the cron loop's first iteration crashes on
the same expression. -/
theorem C5_amended (env : CronEnv) (s : Scheduler)
    (task_id expr tz ht : String) (pj nm : Option String) (now : Nat)
    (s2 : Scheduler) (now2 : Nat)
    (hbad : env.cronNext expr tz now = none)
    (hs2 : s2.cancelled = false)
    (hbad2 : env.cronNext expr tz now2 = none) :
    containsKey (Scheduler.schedule_cron env s task_id expr tz ht pj nm true
      now).cron_tasks task_id = true
    ∧ (s.enable_persistence = true →
        ∃ r, r ∈ (Scheduler.schedule_cron env s task_id expr tz ht pj nm true
            now).db
          ∧ r.task_id = task_id ∧ r.status = "scheduled"
          ∧ r.cron_expression = some expr ∧ r.next_run_at = none)
    ∧ (Scheduler.cron_loop_step env s2 task_id expr tz ht now2 false).2
        = CronStepResult.crashed := by
  refine ⟨schedule_cron_arms env s task_id expr tz ht pj nm true now, ?_, ?_⟩
  · intro hp
    rw [schedule_cron_db_persist env s task_id expr tz ht pj nm now hp, ← hbad]
    exact dbUpsertCron_exists _ _ _ _ _ _ _ _ _
  · unfold Scheduler.cron_loop_step
    simp [hs2, hbad2]

/-- C5 witness: the amended statement evaluated on the concrete bad
expression. -/
theorem C5_witness :
    containsKey (Scheduler.schedule_cron envBad s_empty "c1" "bad" "UTC" "h"
      none none true 0).cron_tasks "c1" = true
    ∧ (∃ r, r ∈ (Scheduler.schedule_cron envBad s_empty "c1" "bad" "UTC" "h"
        none none true 0).db
        ∧ r.task_id = "c1" ∧ r.status = "scheduled"
        ∧ r.cron_expression = some "bad" ∧ r.next_run_at = none)
    ∧ (Scheduler.cron_loop_step envBad s_empty "c1" "bad" "UTC" "h" 3
        false).2 = CronStepResult.crashed := by
  have h := C5_amended envBad s_empty "c1" "bad" "UTC" "h" none none 0
    s_empty 3 rfl rfl rfl
  exact ⟨h.1, h.2.1 rfl, h.2.2⟩

/-- The folded cancellation action applied to each table entry inside
`Scheduler.cancel_all`. -/
def cancelEntry (persist_db : Bool) (now : Nat) (acc : Scheduler)
    (p : String × Nat) : Scheduler :=
  let acc := { acc with cancelledTimers := acc.cancelledTimers ++ [p.2],
                        events := acc.events ++ [Event.timer_cancelled p.2] }
  if persist_db then Scheduler.update_task_status acc p.1 "cancelled" none now
  else acc

theorem cancel_all_eq_folds (s : Scheduler) (persist_db : Bool) (now : Nat) :
    Scheduler.cancel_all s persist_db now
      = (let s0 := { s with cancelled := true }
         let s1 := { s0.tasks.foldl (cancelEntry persist_db now) s0 with
                     tasks := [] }
         let s2 := { s1.one_shot_tasks.foldl (cancelEntry persist_db now) s1 with
                     one_shot_tasks := [] }
         let s3 := { s2.cron_tasks.foldl (cancelEntry persist_db now) s2 with
                     cron_tasks := [] }
         { s3 with events := s3.events ++ [Event.all_tasks_cancelled] }) := by
  rfl


theorem cancelEntry_tasks (persist_db : Bool) (now : Nat) (a : Scheduler)
    (x : String × Nat) : (cancelEntry persist_db now a x).tasks = a.tasks := by
  unfold cancelEntry
  by_cases hpd : persist_db = true <;>
    by_cases hp : a.enable_persistence = true <;>
      simp [hpd, hp, Scheduler.update_task_status]

theorem cancelEntry_one_shot (persist_db : Bool) (now : Nat) (a : Scheduler)
    (x : String × Nat) :
    (cancelEntry persist_db now a x).one_shot_tasks = a.one_shot_tasks := by
  unfold cancelEntry
  by_cases hpd : persist_db = true <;>
    by_cases hp : a.enable_persistence = true <;>
      simp [hpd, hp, Scheduler.update_task_status]

theorem cancelEntry_cron (persist_db : Bool) (now : Nat) (a : Scheduler)
    (x : String × Nat) :
    (cancelEntry persist_db now a x).cron_tasks = a.cron_tasks := by
  unfold cancelEntry
  by_cases hpd : persist_db = true <;>
    by_cases hp : a.enable_persistence = true <;>
      simp [hpd, hp, Scheduler.update_task_status]

theorem cancelEntry_cancelled (persist_db : Bool) (now : Nat) (a : Scheduler)
    (x : String × Nat) :
    (cancelEntry persist_db now a x).cancelled = a.cancelled := by
  unfold cancelEntry
  by_cases hpd : persist_db = true <;>
    by_cases hp : a.enable_persistence = true <;>
      simp [hpd, hp, Scheduler.update_task_status]

theorem cancelEntry_cancelledTimers (persist_db : Bool) (now : Nat)
    (a : Scheduler) (x : String × Nat) :
    (cancelEntry persist_db now a x).cancelledTimers
      = a.cancelledTimers ++ [x.2] := by
  unfold cancelEntry
  by_cases hpd : persist_db = true <;>
    by_cases hp : a.enable_persistence = true <;>
      simp [hpd, hp, Scheduler.update_task_status]

theorem cancelEntry_foldl_tasks (persist_db : Bool) (now : Nat)
    (l : List (String × Nat)) (a : Scheduler) :
    (l.foldl (cancelEntry persist_db now) a).tasks = a.tasks := by
  induction l generalizing a with
  | nil => rfl
  | cons x xs ih => simp [List.foldl_cons, ih, cancelEntry_tasks]

theorem cancelEntry_foldl_one_shot (persist_db : Bool) (now : Nat)
    (l : List (String × Nat)) (a : Scheduler) :
    (l.foldl (cancelEntry persist_db now) a).one_shot_tasks
      = a.one_shot_tasks := by
  induction l generalizing a with
  | nil => rfl
  | cons x xs ih => simp [List.foldl_cons, ih, cancelEntry_one_shot]

theorem cancelEntry_foldl_cron (persist_db : Bool) (now : Nat)
    (l : List (String × Nat)) (a : Scheduler) :
    (l.foldl (cancelEntry persist_db now) a).cron_tasks = a.cron_tasks := by
  induction l generalizing a with
  | nil => rfl
  | cons x xs ih => simp [List.foldl_cons, ih, cancelEntry_cron]

theorem cancelEntry_foldl_cancelled (persist_db : Bool) (now : Nat)
    (l : List (String × Nat)) (a : Scheduler) :
    (l.foldl (cancelEntry persist_db now) a).cancelled = a.cancelled := by
  induction l generalizing a with
  | nil => rfl
  | cons x xs ih => simp [List.foldl_cons, ih, cancelEntry_cancelled]

theorem cancelEntry_foldl_cancelledTimers (persist_db : Bool) (now : Nat)
    (l : List (String × Nat)) (a : Scheduler) :
    (l.foldl (cancelEntry persist_db now) a).cancelledTimers
      = a.cancelledTimers ++ l.map (fun p => p.2) := by
  induction l generalizing a with
  | nil => simp
  | cons x xs ih =>
      simp [List.foldl_cons, ih, cancelEntry_cancelledTimers,
            List.append_assoc]

theorem cancel_all_tables (s : Scheduler) (persist_db : Bool) (now : Nat) :
    (Scheduler.cancel_all s persist_db now).tasks = []
    ∧ (Scheduler.cancel_all s persist_db now).one_shot_tasks = []
    ∧ (Scheduler.cancel_all s persist_db now).cron_tasks = []
    ∧ (Scheduler.cancel_all s persist_db now).cancelled = true
    ∧ (Scheduler.cancel_all s persist_db now).cancelledTimers
        = s.cancelledTimers ++ s.tasks.map (fun p => p.2)
          ++ s.one_shot_tasks.map (fun p => p.2)
          ++ s.cron_tasks.map (fun p => p.2) := by
  rw [cancel_all_eq_folds]
  refine ⟨?_, ?_, ?_, ?_, ?_⟩ <;>
    simp [cancelEntry_foldl_tasks, cancelEntry_foldl_one_shot,
          cancelEntry_foldl_cron, cancelEntry_foldl_cancelled,
          cancelEntry_foldl_cancelledTimers, List.append_assoc]

theorem schedule_at_then_run (s : Scheduler) (now when : Nat)
    (task_id : String) (nm ht pj : Option String) (h : now ≤ when) :
    (Scheduler.one_shot_task
      (Scheduler.schedule_at s now when task_id nm ht pj).1 task_id when when
      false false).2 = OneShotResult.completed
    ∧ Event.one_shot_executing task_id ∈ (Scheduler.one_shot_task
        (Scheduler.schedule_at s now when task_id nm ht pj).1 task_id when when
        false false).1.events := by
  have hlt : ¬ when < now := Nat.not_lt.mpr h
  have harm : containsKey (Scheduler.schedule_at s now when task_id nm ht
      pj).1.one_shot_tasks task_id = true := by
    by_cases hp : s.enable_persistence = true <;>
      simp [Scheduler.schedule_at, hlt, Scheduler.save_one_shot_task, hp,
            Scheduler.schedule_one_shot_in_memory, containsKey_tableInsert_self]
  generalize hgen : (Scheduler.schedule_at s now when task_id nm ht pj).1 = s1
    at harm ⊢
  have hlt2 : ¬ when < when := Nat.lt_irrefl when
  constructor
  · unfold Scheduler.one_shot_task
    by_cases hp : s1.enable_persistence = true <;>
      simp [hlt2, harm, hp, Scheduler.update_task_status]
  · unfold Scheduler.one_shot_task
    by_cases hp : s1.enable_persistence = true <;>
      simp [hlt2, harm, hp, Scheduler.update_task_status]

/-- C6 counterexample: after `cancel_all`, while the scheduler is still in
the cancelled state, a newly scheduled one-shot is admitted, armed, and its
action executes at the fire instant — the one-shot path never consults the
cancelled flag. -/
theorem C6_counterexample :
    (Scheduler.cancel_all s_empty true 0).cancelled = true
    ∧ (Scheduler.one_shot_task
        (Scheduler.schedule_at (Scheduler.cancel_all s_empty true 0) 1 5 "t"
          none none none).1 "t" 5 5 false false).2 = OneShotResult.completed
    ∧ (Scheduler.one_shot_task
        (Scheduler.schedule_at (Scheduler.cancel_all s_empty true 0) 1 5 "t"
          none none none).1 "t" 5 5 false false).1.cancelled = true
    ∧ Event.one_shot_executing "t" ∈ (Scheduler.one_shot_task
        (Scheduler.schedule_at (Scheduler.cancel_all s_empty true 0) 1 5 "t"
          none none none).1 "t" 5 5 false false).1.events := by
  refine ⟨rfl, rfl, rfl, ?_⟩
  decide

/-- C6 (amended): `cancel_all` cancels every timer handle in all three
tables, clears them, and sets the cancelled flag, which the periodic and
cron loops observe (they exit without firing); a one-shot armed before the
call never executes its action (its id is gone, so the body takes the
cancelled-before-run path).  However, a one-shot scheduled after the call is
admitted, armed, and fires normally while the scheduler is still in the
cancelled state: `_one_shot_task` never checks the flag. -/
theorem C6_amended (s : Scheduler) (persist_db : Bool) (now : Nat)
    (nm : String) (fr cds : Bool)
    (env : CronEnv) (ctid expr tz cht : String) (cnow : Nat) (car : Bool)
    (tid2 : String) (w2 n2 : Nat)
    (tid3 : String) (w3 now3 : Nat) (nm3 ht3 pj3 : Option String)
    (h2 : n2 ≤ w2) (h3 : now3 ≤ w3) :
    (Scheduler.cancel_all s persist_db now).tasks = []
    ∧ (Scheduler.cancel_all s persist_db now).one_shot_tasks = []
    ∧ (Scheduler.cancel_all s persist_db now).cron_tasks = []
    ∧ (Scheduler.cancel_all s persist_db now).cancelled = true
    ∧ (Scheduler.cancel_all s persist_db now).cancelledTimers
        = s.cancelledTimers ++ s.tasks.map (fun p => p.2)
          ++ s.one_shot_tasks.map (fun p => p.2)
          ++ s.cron_tasks.map (fun p => p.2)
    ∧ Scheduler.periodic_task_step (Scheduler.cancel_all s persist_db now) nm
        fr cds
        = ⟨Scheduler.cancel_all s persist_db now, false, false⟩
    ∧ Scheduler.cron_loop_step env (Scheduler.cancel_all s persist_db now)
        ctid expr tz cht cnow car
        = (Scheduler.cancel_all s persist_db now, CronStepResult.exited)
    ∧ (Scheduler.one_shot_task (Scheduler.cancel_all s persist_db now) tid2 w2
        n2 false false).2 = OneShotResult.cancelled_before_run
    ∧ (Scheduler.one_shot_task
        (Scheduler.schedule_at (Scheduler.cancel_all s persist_db now) now3 w3
          tid3 nm3 ht3 pj3).1 tid3 w3 w3 false false).2
        = OneShotResult.completed
    ∧ Event.one_shot_executing tid3 ∈ (Scheduler.one_shot_task
        (Scheduler.schedule_at (Scheduler.cancel_all s persist_db now) now3 w3
          tid3 nm3 ht3 pj3).1 tid3 w3 w3 false false).1.events := by
  obtain ⟨ht', ho', hc', hf', hct'⟩ := cancel_all_tables s persist_db now
  refine ⟨ht', ho', hc', hf', hct', ?_, ?_, ?_, ?_, ?_⟩
  · simp [Scheduler.periodic_task_step, hf']
  · unfold Scheduler.cron_loop_step
    simp [hf']
  · have hlt2 : ¬ w2 < n2 := Nat.not_lt.mpr h2
    have hnone : containsKey (Scheduler.cancel_all s persist_db
        now).one_shot_tasks tid2 = false := by
      rw [ho']; rfl
    unfold Scheduler.one_shot_task
    simp [hlt2, hnone]
  · exact (schedule_at_then_run _ now3 w3 tid3 nm3 ht3 pj3 h3).1
  · exact (schedule_at_then_run _ now3 w3 tid3 nm3 ht3 pj3 h3).2

/-- C6 witness: amended statement at a concrete scheduler holding one timer
of each kind. -/
def s_three_timers : Scheduler :=
  { tasks := [("p1", 0)], one_shot_tasks := [("os1", 1)],
    cron_tasks := [("c1", 2)], nextTimerId := 3 }

/-- C6 witness: evaluates every conjunct of the amended claim on
`s_three_timers`. -/
theorem C6_witness :
    (Scheduler.cancel_all s_three_timers true 0).one_shot_tasks = []
    ∧ (Scheduler.cancel_all s_three_timers true 0).cancelledTimers = [0, 1, 2]
    ∧ Scheduler.periodic_task_step (Scheduler.cancel_all s_three_timers true 0)
        "p1" false false
        = ⟨Scheduler.cancel_all s_three_timers true 0, false, false⟩
    ∧ (Scheduler.one_shot_task (Scheduler.cancel_all s_three_timers true 0)
        "os1" 5 4 false false).2 = OneShotResult.cancelled_before_run
    ∧ (Scheduler.one_shot_task
        (Scheduler.schedule_at (Scheduler.cancel_all s_three_timers true 0) 1 5
          "t9" none none none).1 "t9" 5 5 false false).2
        = OneShotResult.completed := by
  have h := C6_amended s_three_timers true 0 "p1" false false envTick "c"
    "* * * * *" "UTC" "h" 7 false "os1" 5 4 "t9" 5 1 none none none
    (by decide) (by decide)
  exact ⟨h.2.1, h.2.2.2.2.1, h.2.2.2.2.2.1, h.2.2.2.2.2.2.2.1,
         h.2.2.2.2.2.2.2.2.1⟩

theorem cron_loop_step_continues (env : CronEnv) (s : Scheduler)
    (task_id expr tz ht : String) (now : Nat) (ar : Bool) (m : Nat)
    (hcf : s.cancelled = false) (hm : env.cronNext expr tz now = some m)
    (hreg : containsKey s.restore_handlers ht = true) :
    (Scheduler.cron_loop_step env s task_id expr tz ht now ar).2
      = CronStepResult.continued true (max now m)
    ∧ (Scheduler.cron_loop_step env s task_id expr tz ht now ar).1.cancelled
        = false
    ∧ (Scheduler.cron_loop_step env s task_id expr tz ht now
        ar).1.restore_handlers = s.restore_handlers := by
  unfold Scheduler.cron_loop_step
  cases hlh : lookupKey s.restore_handlers ht with
  | none =>
      rw [containsKey_eq_isSome, hlh] at hreg
      simp at hreg
  | some h =>
      by_cases hp : s.enable_persistence = true
      · by_cases hcr : (h.creationRaises || ar) = true <;>
          simp [hcf, hm, hreg, hp, hlh, hcr]
      · by_cases hcr : (h.creationRaises || ar) = true <;>
          simp [hcf, hm, hreg, hp, hlh, hcr]

/-- C4: for every cron task run under an evaluator that always yields a
strictly future next occurrence, every loop iteration — whatever downtime or
execution delay (`gap`) precedes its clock reading — fires exactly once, at
the occurrence computed from that iteration's current instant (never at a
missed past occurrence); occurrence N+1's computation instant is at or after
occurrence N's fire, and fire instants strictly increase. -/
theorem C4_cron_recompute (env : CronEnv) (s : Scheduler)
    (task_id expr tz ht : String) (now : Nat) (iters : List CronIter)
    (hnext : ∀ t, ∃ m, env.cronNext expr tz t = some m ∧ t < m)
    (hcf : s.cancelled = false)
    (hreg : containsKey s.restore_handlers ht = true) :
    (Scheduler.cron_loop_run env s task_id expr tz ht now iters).2.2 = false
    ∧ (Scheduler.cron_loop_run env s task_id expr tz ht now
        iters).2.1.length = iters.length
    ∧ (∀ pr ∈ (Scheduler.cron_loop_run env s task_id expr tz ht now
        iters).2.1, env.cronNext expr tz pr.1 = some pr.2 ∧ pr.1 < pr.2)
    ∧ (∀ pr ∈ (Scheduler.cron_loop_run env s task_id expr tz ht now
        iters).2.1, now ≤ pr.1)
    ∧ List.Chain' (fun a b => a.2 ≤ b.1)
        (Scheduler.cron_loop_run env s task_id expr tz ht now iters).2.1
    ∧ List.Chain' (fun a b : Nat × Nat => a.2 < b.2)
        (Scheduler.cron_loop_run env s task_id expr tz ht now iters).2.1 := by
  induction iters generalizing s now with
  | nil => simp [Scheduler.cron_loop_run]
  | cons it rest ih =>
      obtain ⟨m, hm, hlt⟩ := hnext now
      obtain ⟨hstep2, hstepc, hsteph⟩ := cron_loop_step_continues env s task_id
        expr tz ht now it.actionRaises m hcf hm hreg
      have hmax : max now m = m := Nat.max_eq_right (Nat.le_of_lt hlt)
      rw [hmax] at hstep2
      have hreg' : containsKey (Scheduler.cron_loop_step env s task_id expr tz
          ht now it.actionRaises).1.restore_handlers ht = true := by
        rw [hsteph]; exact hreg
      obtain ⟨ih1, ih2, ih3, ih4, ih5, ih6⟩ := ih
        (Scheduler.cron_loop_step env s task_id expr tz ht now
          it.actionRaises).1 (m + it.gap) hstepc hreg'
      have hrun : Scheduler.cron_loop_run env s task_id expr tz ht now
          (it :: rest)
          = ((Scheduler.cron_loop_run env
              (Scheduler.cron_loop_step env s task_id expr tz ht now
                it.actionRaises).1 task_id expr tz ht (m + it.gap) rest).1,
             (now, m) :: (Scheduler.cron_loop_run env
              (Scheduler.cron_loop_step env s task_id expr tz ht now
                it.actionRaises).1 task_id expr tz ht (m + it.gap) rest).2.1,
             (Scheduler.cron_loop_run env
              (Scheduler.cron_loop_step env s task_id expr tz ht now
                it.actionRaises).1 task_id expr tz ht (m + it.gap)
              rest).2.2) := by
        conv_lhs => rw [Scheduler.cron_loop_run.eq_def]
        simp [hstep2]
      rw [hrun]
      refine ⟨ih1, by simp [ih2], ?_, ?_, ?_, ?_⟩
      · intro pr hpr
        rcases List.mem_cons.mp hpr with hh | ht'
        · subst hh
          exact ⟨hm, hlt⟩
        · exact ih3 pr ht'
      · intro pr hpr
        rcases List.mem_cons.mp hpr with hh | ht'
        · subst hh
          exact Nat.le_refl now
        · exact Nat.le_trans (Nat.le_of_lt hlt)
            (Nat.le_trans (Nat.le_add_right m it.gap) (ih4 pr ht'))
      · rw [List.chain'_cons']
        refine ⟨?_, ih5⟩
        intro h hh
        have hmem := List.mem_of_mem_head? hh
        exact Nat.le_trans (Nat.le_add_right m it.gap) (ih4 h hmem)
      · rw [List.chain'_cons']
        refine ⟨?_, ih6⟩
        intro h hh
        have hmem := List.mem_of_mem_head? hh
        exact Nat.lt_of_le_of_lt
          (Nat.le_trans (Nat.le_add_right m it.gap) (ih4 h hmem))
          (ih3 h hmem).2

/-- C4 witness: three iterations under the tick evaluator with downtime gaps
0, 7 and 2 — one fire each, each strictly after its clock reading. -/
theorem C4_witness :
    (Scheduler.cron_loop_run envTick s_cron_handler "c1" "* * * * *" "UTC" "h"
      0 [⟨0, false⟩, ⟨7, false⟩, ⟨2, false⟩]).2.2 = false
    ∧ (Scheduler.cron_loop_run envTick s_cron_handler "c1" "* * * * *" "UTC"
        "h" 0 [⟨0, false⟩, ⟨7, false⟩, ⟨2, false⟩]).2.1.length = 3
    ∧ List.Chain' (fun a b : Nat × Nat => a.2 < b.2)
        (Scheduler.cron_loop_run envTick s_cron_handler "c1" "* * * * *" "UTC"
          "h" 0 [⟨0, false⟩, ⟨7, false⟩, ⟨2, false⟩]).2.1 := by
  have h := C4_cron_recompute envTick s_cron_handler "c1" "* * * * *" "UTC"
    "h" 0 [⟨0, false⟩, ⟨7, false⟩, ⟨2, false⟩]
    (fun t => ⟨t + 1, rfl, Nat.lt_succ_self t⟩) rfl rfl
  exact ⟨h.1, h.2.1, h.2.2.2.2.2⟩

theorem containsKey_tableInsert_ne {β : Type} (t : List (String × β))
    (k k' : String) (v : β) (h : k' ≠ k) :
    containsKey (tableInsert t k v) k' = containsKey t k' := by
  rw [containsKey_eq_isSome, containsKey_eq_isSome,
      lookupKey_tableInsert_ne t k k' v h]

theorem rosim_fields (s : Scheduler) (task_id : String) (w : Nat)
    (nm : Option String) :
    (Scheduler.restore_one_shot_in_memory s task_id w nm).restore_handlers
        = s.restore_handlers
    ∧ (Scheduler.restore_one_shot_in_memory s task_id w nm).cron_tasks
        = s.cron_tasks
    ∧ (Scheduler.restore_one_shot_in_memory s task_id w nm).db = s.db
    ∧ (Scheduler.restore_one_shot_in_memory s task_id w nm).enable_persistence
        = s.enable_persistence
    ∧ (Scheduler.restore_one_shot_in_memory s task_id w nm).tasks = s.tasks := by
  unfold Scheduler.restore_one_shot_in_memory Scheduler.schedule_one_shot_in_memory
  by_cases hc : containsKey s.one_shot_tasks task_id = true <;> simp [hc]

theorem rosim_contains_self (s : Scheduler) (task_id : String) (w : Nat)
    (nm : Option String) :
    containsKey (Scheduler.restore_one_shot_in_memory s task_id w
      nm).one_shot_tasks task_id = true := by
  unfold Scheduler.restore_one_shot_in_memory Scheduler.schedule_one_shot_in_memory
  by_cases hc : containsKey s.one_shot_tasks task_id = true <;>
    simp [hc, containsKey_tableInsert_self]

theorem rosim_contains_ne (s : Scheduler) (task_id : String) (w : Nat)
    (nm : Option String) (k : String) (h : k ≠ task_id) :
    containsKey (Scheduler.restore_one_shot_in_memory s task_id w
      nm).one_shot_tasks k = containsKey s.one_shot_tasks k := by
  unfold Scheduler.restore_one_shot_in_memory Scheduler.schedule_one_shot_in_memory
  by_cases hc : containsKey s.one_shot_tasks task_id = true <;>
    simp [hc, containsKey_tableInsert_ne _ _ _ _ h]

theorem rosim_contains_mono (s : Scheduler) (task_id : String) (w : Nat)
    (nm : Option String) (k : String)
    (h : containsKey s.one_shot_tasks k = true) :
    containsKey (Scheduler.restore_one_shot_in_memory s task_id w
      nm).one_shot_tasks k = true := by
  by_cases hk : k = task_id
  · subst hk
    exact rosim_contains_self s k w nm
  · rw [rosim_contains_ne s task_id w nm k hk]
    exact h

theorem uts_fields (s : Scheduler) (task_id status : String)
    (c : Option Nat) (now : Nat) :
    (Scheduler.update_task_status s task_id status c now).restore_handlers
        = s.restore_handlers
    ∧ (Scheduler.update_task_status s task_id status c now).cron_tasks
        = s.cron_tasks
    ∧ (Scheduler.update_task_status s task_id status c now).one_shot_tasks
        = s.one_shot_tasks
    ∧ (Scheduler.update_task_status s task_id status c now).enable_persistence
        = s.enable_persistence
    ∧ (Scheduler.update_task_status s task_id status c now).db.length
        = s.db.length
    ∧ (Scheduler.update_task_status s task_id status c now).events
        = s.events := by
  unfold Scheduler.update_task_status
  by_cases hp : s.enable_persistence = true <;>
    simp [hp, dbUpdateStatus_length]

theorem uts_db_mem_other (s : Scheduler) (task_id status : String)
    (c : Option Nat) (now : Nat) (r2 : TaskRow) (hmem : r2 ∈ s.db)
    (hne : r2.task_id ≠ task_id) :
    r2 ∈ (Scheduler.update_task_status s task_id status c now).db := by
  unfold Scheduler.update_task_status
  by_cases hp : s.enable_persistence = true
  · simp only [hp, if_true]
    exact mem_updateFirst_of_not_p _ _ s.db r2 hmem (by simp [hne])
  · simp [hp, hmem]

theorem schedule_cron_nopersist_fields (env : CronEnv) (s : Scheduler)
    (task_id expr tz ht : String) (pj nm : Option String) (now : Nat) :
    (Scheduler.schedule_cron env s task_id expr tz ht pj nm false
      now).one_shot_tasks = s.one_shot_tasks
    ∧ (Scheduler.schedule_cron env s task_id expr tz ht pj nm false now).db
        = s.db
    ∧ (Scheduler.schedule_cron env s task_id expr tz ht pj nm false
        now).restore_handlers = s.restore_handlers
    ∧ (Scheduler.schedule_cron env s task_id expr tz ht pj nm false
        now).enable_persistence = s.enable_persistence
    ∧ (Scheduler.schedule_cron env s task_id expr tz ht pj nm false
        now).tasks = s.tasks := by
  unfold Scheduler.schedule_cron
  cases hl : lookupKey s.cron_tasks task_id <;> simp [hl]

/-- Every outcome of the one-shot restoration body: skipped (events-only),
failed (error recorded), restored in memory, or expired (row completed). -/
theorem restore_one_shot_step_shape (rn : Nat)
    (acc : Scheduler × RestoreSummary) (r : TaskRow) :
    (∃ ev, Scheduler.restore_one_shot_step rn acc r
        = ({ acc.1 with events := acc.1.events ++ [ev] }, acc.2))
    ∨ (∃ msg, Scheduler.restore_one_shot_step rn acc r
        = ({ acc.1 with
             events := acc.1.events ++ [Event.task_restore_error r.task_id] },
           { acc.2 with failed := acc.2.failed + 1,
                        errors := acc.2.errors ++ [msg] }))
    ∨ (∃ t, r.scheduled_for = some t ∧ rn < t
        ∧ Scheduler.restore_one_shot_step rn acc r
          = ({ Scheduler.restore_one_shot_in_memory acc.1 r.task_id t r.name with
               events := (Scheduler.restore_one_shot_in_memory acc.1 r.task_id
                 t r.name).events ++ [Event.one_shot_task_restored r.task_id] },
             { acc.2 with one_shot := acc.2.one_shot + 1 }))
    ∨ (Scheduler.restore_one_shot_step rn acc r
        = ({ Scheduler.update_task_status acc.1 r.task_id "completed"
               (some rn) rn with
             events := (Scheduler.update_task_status acc.1 r.task_id
               "completed" (some rn) rn).events
               ++ [Event.one_shot_task_expired r.task_id] }, acc.2)) := by
  unfold Scheduler.restore_one_shot_step
  cases hht : r.handler_type with
  | none => exact Or.inl ⟨Event.one_shot_task_restore_skipped r.task_id, by simp⟩
  | some ht =>
      cases hlh : lookupKey acc.1.restore_handlers ht with
      | none =>
          exact Or.inl ⟨Event.one_shot_task_restore_skipped r.task_id,
            by simp [hlh]⟩
      | some h =>
          by_cases hcr : h.creationRaises = true
          · exact Or.inr (Or.inl
              ⟨"One-shot task " ++ r.task_id ++ ": handler error",
               by simp [hlh, hcr]⟩)
          · have hcr' : h.creationRaises = false := Bool.eq_false_iff.mpr hcr
            cases hsf : r.scheduled_for with
            | none =>
                exact Or.inr (Or.inl
                  ⟨"One-shot task " ++ r.task_id ++ ": bad scheduled_for",
                   by simp [hlh, hcr', hsf]⟩)
            | some t =>
                by_cases hfut : rn < t
                · exact Or.inr (Or.inr (Or.inl ⟨t, rfl, hfut,
                    by simp [hlh, hcr', hsf, hfut]⟩))
                · exact Or.inr (Or.inr (Or.inr
                    (by simp [hlh, hcr', hsf, hfut])))

/-- Every outcome of the cron restoration body: skipped (events-only) or
re-registered through `schedule_cron` with persistence suppressed; in both
cases the summary is returned unchanged (the source adds zero to its
counters). -/
theorem restore_cron_step_shape (env : CronEnv) (rn : Nat)
    (acc : Scheduler × RestoreSummary) (r : TaskRow) :
    (∃ ev, Scheduler.restore_cron_step env rn acc r
        = ({ acc.1 with events := acc.1.events ++ [ev] }, acc.2))
    ∨ (∃ expr tzName ht,
        Scheduler.restore_cron_step env rn acc r
          = ({ Scheduler.schedule_cron env acc.1 r.task_id expr tzName ht
                 r.parameters_json r.name false rn with
               events := (Scheduler.schedule_cron env acc.1 r.task_id expr
                 tzName ht r.parameters_json r.name false rn).events
                 ++ [Event.cron_task_restored r.task_id] }, acc.2)) := by
  unfold Scheduler.restore_cron_step
  cases hce : r.cron_expression with
  | none => exact Or.inl ⟨Event.cron_task_restore_skipped r.task_id, by simp⟩
  | some expr =>
      cases hht : r.handler_type with
      | none => exact Or.inl ⟨Event.cron_task_restore_skipped r.task_id, by simp⟩
      | some ht =>
          by_cases hreg : containsKey acc.1.restore_handlers ht = false
          · exact Or.inl ⟨Event.cron_task_restore_skipped r.task_id, by simp [hreg]⟩
          · exact Or.inr ⟨expr,
              (match r.timezone_name with
               | some z => z
               | none => "UTC"), ht, by simp [hreg]⟩

theorem restore_periodic_step_eq (acc : Scheduler × RestoreSummary)
    (r : TaskRow) :
    Scheduler.restore_periodic_step acc r
      = ({ acc.1 with
           events := acc.1.events
             ++ [Event.periodic_task_restore_skipped r.task_id] }, acc.2) := rfl

theorem restore_one_shot_step_preserves (rn : Nat)
    (acc : Scheduler × RestoreSummary) (r : TaskRow) :
    (Scheduler.restore_one_shot_step rn acc r).1.restore_handlers
        = acc.1.restore_handlers
    ∧ (Scheduler.restore_one_shot_step rn acc r).1.cron_tasks
        = acc.1.cron_tasks
    ∧ (Scheduler.restore_one_shot_step rn acc r).1.db.length
        = acc.1.db.length
    ∧ (Scheduler.restore_one_shot_step rn acc r).1.enable_persistence
        = acc.1.enable_persistence
    ∧ (Scheduler.restore_one_shot_step rn acc r).2.periodic = acc.2.periodic
    ∧ acc.2.failed ≤ (Scheduler.restore_one_shot_step rn acc r).2.failed
    ∧ (∀ e ∈ acc.2.errors,
        e ∈ (Scheduler.restore_one_shot_step rn acc r).2.errors) := by
  rcases restore_one_shot_step_shape rn acc r with
    ⟨ev, heq⟩ | ⟨msg, heq⟩ | ⟨t, hsf, hfut, heq⟩ | heq <;> rw [heq]
  · simp
  · refine ⟨rfl, rfl, rfl, rfl, rfl, Nat.le_succ _, ?_⟩
    intro e he
    exact List.mem_append_left _ he
  · obtain ⟨ha, hb, hc, hd, _⟩ := rosim_fields acc.1 r.task_id t r.name
    simp [ha, hb, hc, hd]
  · obtain ⟨ha, hb, _, hd, he, _⟩ := uts_fields acc.1 r.task_id "completed"
      (some rn) rn
    simp [ha, hb, hd, he]

theorem restore_one_shot_step_contains_mono (rn : Nat)
    (acc : Scheduler × RestoreSummary) (r : TaskRow) (k : String)
    (h : containsKey acc.1.one_shot_tasks k = true) :
    containsKey (Scheduler.restore_one_shot_step rn acc
      r).1.one_shot_tasks k = true := by
  rcases restore_one_shot_step_shape rn acc r with
    ⟨ev, heq⟩ | ⟨msg, heq⟩ | ⟨t, hsf, hfut, heq⟩ | heq <;> rw [heq]
  · exact h
  · exact h
  · exact rosim_contains_mono acc.1 r.task_id t r.name k h
  · obtain ⟨_, _, hc, _, _, _⟩ := uts_fields acc.1 r.task_id "completed"
      (some rn) rn
    simpa [hc] using h

theorem restore_one_shot_step_contains_ne (rn : Nat)
    (acc : Scheduler × RestoreSummary) (r : TaskRow) (k : String)
    (hne : k ≠ r.task_id) :
    containsKey (Scheduler.restore_one_shot_step rn acc r).1.one_shot_tasks k
      = containsKey acc.1.one_shot_tasks k := by
  rcases restore_one_shot_step_shape rn acc r with
    ⟨ev, heq⟩ | ⟨msg, heq⟩ | ⟨t, hsf, hfut, heq⟩ | heq <;> rw [heq]
  · simpa using rosim_contains_ne acc.1 r.task_id t r.name k hne
  · obtain ⟨_, _, hc, _, _, _⟩ := uts_fields acc.1 r.task_id "completed"
      (some rn) rn
    simp [hc]

theorem restore_one_shot_step_db_mem_other (rn : Nat)
    (acc : Scheduler × RestoreSummary) (r : TaskRow) (r2 : TaskRow)
    (hmem : r2 ∈ acc.1.db) (hne : r2.task_id ≠ r.task_id) :
    r2 ∈ (Scheduler.restore_one_shot_step rn acc r).1.db := by
  rcases restore_one_shot_step_shape rn acc r with
    ⟨ev, heq⟩ | ⟨msg, heq⟩ | ⟨t, hsf, hfut, heq⟩ | heq <;> rw [heq]
  · exact hmem
  · exact hmem
  · obtain ⟨_, _, hc, _, _⟩ := rosim_fields acc.1 r.task_id t r.name
    simpa [hc] using hmem
  · exact uts_db_mem_other acc.1 r.task_id "completed" (some rn) rn r2 hmem hne

theorem restore_one_shot_step_arms (rn : Nat)
    (acc : Scheduler × RestoreSummary) (r : TaskRow) (t : Nat) (ht : String)
    (h : Handler) (hsf : r.scheduled_for = some t) (hfut : rn < t)
    (hht : r.handler_type = some ht)
    (hreg : lookupKey acc.1.restore_handlers ht = some h)
    (hok : h.creationRaises = false) :
    containsKey (Scheduler.restore_one_shot_step rn acc r).1.one_shot_tasks
      r.task_id = true := by
  unfold Scheduler.restore_one_shot_step
  simp [hht, hreg, hok, hsf, hfut, rosim_contains_self]

theorem restore_one_shot_step_reports (rn : Nat)
    (acc : Scheduler × RestoreSummary) (r : TaskRow) (ht : String)
    (h : Handler) (hht : r.handler_type = some ht)
    (hreg : lookupKey acc.1.restore_handlers ht = some h)
    (hcr : h.creationRaises = true) :
    ("One-shot task " ++ r.task_id ++ ": handler error")
        ∈ (Scheduler.restore_one_shot_step rn acc r).2.errors
    ∧ (Scheduler.restore_one_shot_step rn acc r).2.failed
        = acc.2.failed + 1 := by
  unfold Scheduler.restore_one_shot_step
  simp [hht, hreg, hcr]

theorem restore_cron_step_preserves (env : CronEnv) (rn : Nat)
    (acc : Scheduler × RestoreSummary) (r : TaskRow) :
    (Scheduler.restore_cron_step env rn acc r).1.one_shot_tasks
        = acc.1.one_shot_tasks
    ∧ (Scheduler.restore_cron_step env rn acc r).1.db = acc.1.db
    ∧ (Scheduler.restore_cron_step env rn acc r).1.restore_handlers
        = acc.1.restore_handlers
    ∧ (Scheduler.restore_cron_step env rn acc r).1.enable_persistence
        = acc.1.enable_persistence
    ∧ (Scheduler.restore_cron_step env rn acc r).2 = acc.2 := by
  rcases restore_cron_step_shape env rn acc r with
    ⟨ev, heq⟩ | ⟨expr, tzn, ht, heq⟩ <;> rw [heq]
  · simp
  · obtain ⟨h1, h2, h3, h4, _⟩ := schedule_cron_nopersist_fields env acc.1
      r.task_id expr tzn ht r.parameters_json r.name rn
    simp [h1, h2, h3, h4]

theorem restore_one_shot_foldl_preserves (rn : Nat) (l : List TaskRow)
    (acc : Scheduler × RestoreSummary) :
    (l.foldl (Scheduler.restore_one_shot_step rn) acc).1.restore_handlers
        = acc.1.restore_handlers
    ∧ (l.foldl (Scheduler.restore_one_shot_step rn) acc).1.cron_tasks
        = acc.1.cron_tasks
    ∧ (l.foldl (Scheduler.restore_one_shot_step rn) acc).1.db.length
        = acc.1.db.length
    ∧ (l.foldl (Scheduler.restore_one_shot_step rn) acc).1.enable_persistence
        = acc.1.enable_persistence
    ∧ (l.foldl (Scheduler.restore_one_shot_step rn) acc).2.periodic
        = acc.2.periodic
    ∧ acc.2.failed ≤ (l.foldl (Scheduler.restore_one_shot_step rn) acc).2.failed
    ∧ (∀ e ∈ acc.2.errors,
        e ∈ (l.foldl (Scheduler.restore_one_shot_step rn) acc).2.errors) := by
  induction l generalizing acc with
  | nil => exact ⟨rfl, rfl, rfl, rfl, rfl, Nat.le_refl _, fun e he => he⟩
  | cons x xs ih =>
      obtain ⟨sa, sb, sc, sd, se, sf, sg⟩ :=
        restore_one_shot_step_preserves rn acc x
      obtain ⟨ia, ib, ic, id', ie', if', ig⟩ :=
        ih (Scheduler.restore_one_shot_step rn acc x)
      refine ⟨by rw [List.foldl_cons, ia, sa],
              by rw [List.foldl_cons, ib, sb],
              by rw [List.foldl_cons, ic, sc],
              by rw [List.foldl_cons, id', sd],
              by rw [List.foldl_cons, ie', se],
              by rw [List.foldl_cons]; exact Nat.le_trans sf if', ?_⟩
      intro e he
      rw [List.foldl_cons]
      exact ig e (sg e he)

theorem restore_one_shot_foldl_contains_mono (rn : Nat) (l : List TaskRow)
    (acc : Scheduler × RestoreSummary) (k : String)
    (h : containsKey acc.1.one_shot_tasks k = true) :
    containsKey (l.foldl (Scheduler.restore_one_shot_step rn)
      acc).1.one_shot_tasks k = true := by
  induction l generalizing acc with
  | nil => exact h
  | cons x xs ih =>
      rw [List.foldl_cons]
      exact ih _ (restore_one_shot_step_contains_mono rn acc x k h)

theorem restore_one_shot_foldl_contains_ne (rn : Nat) (l : List TaskRow)
    (acc : Scheduler × RestoreSummary) (k : String)
    (hne : ∀ r' ∈ l, k ≠ r'.task_id) :
    containsKey (l.foldl (Scheduler.restore_one_shot_step rn)
      acc).1.one_shot_tasks k = containsKey acc.1.one_shot_tasks k := by
  induction l generalizing acc with
  | nil => rfl
  | cons x xs ih =>
      rw [List.foldl_cons,
          ih _ (fun r' hr' => hne r' (List.mem_cons_of_mem x hr'))]
      exact restore_one_shot_step_contains_ne rn acc x k
        (hne x (List.mem_cons_self x xs))

theorem restore_one_shot_foldl_db_mem_other (rn : Nat) (l : List TaskRow)
    (acc : Scheduler × RestoreSummary) (r2 : TaskRow)
    (hmem : r2 ∈ acc.1.db) (hne : ∀ r' ∈ l, r2.task_id ≠ r'.task_id) :
    r2 ∈ (l.foldl (Scheduler.restore_one_shot_step rn) acc).1.db := by
  induction l generalizing acc with
  | nil => exact hmem
  | cons x xs ih =>
      rw [List.foldl_cons]
      exact ih _
        (restore_one_shot_step_db_mem_other rn acc x r2 hmem
          (hne x (List.mem_cons_self x xs)))
        (fun r' hr' => hne r' (List.mem_cons_of_mem x hr'))

theorem restore_one_shot_foldl_arms (rn : Nat) (l : List TaskRow)
    (acc : Scheduler × RestoreSummary) (r : TaskRow) (t : Nat) (ht : String)
    (h : Handler) (hr : r ∈ l) (hsf : r.scheduled_for = some t)
    (hfut : rn < t) (hht : r.handler_type = some ht)
    (hreg : lookupKey acc.1.restore_handlers ht = some h)
    (hok : h.creationRaises = false) :
    containsKey (l.foldl (Scheduler.restore_one_shot_step rn)
      acc).1.one_shot_tasks r.task_id = true := by
  induction l generalizing acc with
  | nil => cases hr
  | cons x xs ih =>
      rw [List.foldl_cons]
      rcases List.mem_cons.mp hr with hh | htail
      · subst hh
        exact restore_one_shot_foldl_contains_mono rn xs _ r.task_id
          (restore_one_shot_step_arms rn acc r t ht h hsf hfut hht hreg hok)
      · have hreg' : lookupKey (Scheduler.restore_one_shot_step rn acc
            x).1.restore_handlers ht = some h := by
          rw [(restore_one_shot_step_preserves rn acc x).1]
          exact hreg
        exact ih _ htail hreg'

theorem restore_one_shot_foldl_reports (rn : Nat) (l : List TaskRow)
    (acc : Scheduler × RestoreSummary) (r : TaskRow) (ht : String)
    (h : Handler) (hr : r ∈ l) (hht : r.handler_type = some ht)
    (hreg : lookupKey acc.1.restore_handlers ht = some h)
    (hcr : h.creationRaises = true) :
    ("One-shot task " ++ r.task_id ++ ": handler error")
        ∈ (l.foldl (Scheduler.restore_one_shot_step rn) acc).2.errors
    ∧ acc.2.failed + 1
        ≤ (l.foldl (Scheduler.restore_one_shot_step rn) acc).2.failed := by
  induction l generalizing acc with
  | nil => cases hr
  | cons x xs ih =>
      rw [List.foldl_cons]
      rcases List.mem_cons.mp hr with hh | htail
      · subst hh
        obtain ⟨he, hf⟩ := restore_one_shot_step_reports rn acc r ht h hht
          hreg hcr
        obtain ⟨_, _, _, _, _, hmono, herrs⟩ :=
          restore_one_shot_foldl_preserves rn xs
            (Scheduler.restore_one_shot_step rn acc r)
        exact ⟨herrs _ he, by rw [← hf]; exact hmono⟩
      · have hreg' : lookupKey (Scheduler.restore_one_shot_step rn acc
            x).1.restore_handlers ht = some h := by
          rw [(restore_one_shot_step_preserves rn acc x).1]
          exact hreg
        obtain ⟨he, hf⟩ := ih _ htail hreg'
        have hstep := (restore_one_shot_step_preserves rn acc x).2.2.2.2.2.1
        exact ⟨he, Nat.le_trans (Nat.add_le_add_right hstep 1) hf⟩

theorem restore_cron_foldl_preserves (env : CronEnv) (rn : Nat)
    (l : List TaskRow) (acc : Scheduler × RestoreSummary) :
    (l.foldl (Scheduler.restore_cron_step env rn) acc).1.one_shot_tasks
        = acc.1.one_shot_tasks
    ∧ (l.foldl (Scheduler.restore_cron_step env rn) acc).1.db = acc.1.db
    ∧ (l.foldl (Scheduler.restore_cron_step env rn) acc).1.restore_handlers
        = acc.1.restore_handlers
    ∧ (l.foldl (Scheduler.restore_cron_step env rn) acc).1.enable_persistence
        = acc.1.enable_persistence
    ∧ (l.foldl (Scheduler.restore_cron_step env rn) acc).2 = acc.2 := by
  induction l generalizing acc with
  | nil => exact ⟨rfl, rfl, rfl, rfl, rfl⟩
  | cons x xs ih =>
      obtain ⟨sa, sb, sc, sd, se⟩ := restore_cron_step_preserves env rn acc x
      obtain ⟨ia, ib, ic, id', ie'⟩ := ih (Scheduler.restore_cron_step env rn acc x)
      exact ⟨by rw [List.foldl_cons, ia, sa],
             by rw [List.foldl_cons, ib, sb],
             by rw [List.foldl_cons, ic, sc],
             by rw [List.foldl_cons, id', sd],
             by rw [List.foldl_cons, ie', se]⟩

theorem restore_periodic_foldl_preserves (l : List TaskRow)
    (acc : Scheduler × RestoreSummary) :
    (l.foldl Scheduler.restore_periodic_step acc).1.one_shot_tasks
        = acc.1.one_shot_tasks
    ∧ (l.foldl Scheduler.restore_periodic_step acc).1.db = acc.1.db
    ∧ (l.foldl Scheduler.restore_periodic_step acc).1.restore_handlers
        = acc.1.restore_handlers
    ∧ (l.foldl Scheduler.restore_periodic_step acc).1.enable_persistence
        = acc.1.enable_persistence
    ∧ (l.foldl Scheduler.restore_periodic_step acc).2 = acc.2 := by
  induction l generalizing acc with
  | nil => exact ⟨rfl, rfl, rfl, rfl, rfl⟩
  | cons x xs ih =>
      obtain ⟨ia, ib, ic, id', ie'⟩ := ih (Scheduler.restore_periodic_step acc x)
      rw [restore_periodic_step_eq] at ia ib ic id' ie'
      exact ⟨by rw [List.foldl_cons, restore_periodic_step_eq]; exact ia,
             by rw [List.foldl_cons, restore_periodic_step_eq]; exact ib,
             by rw [List.foldl_cons, restore_periodic_step_eq]; exact ic,
             by rw [List.foldl_cons, restore_periodic_step_eq]; exact id',
             by rw [List.foldl_cons, restore_periodic_step_eq]; exact ie'⟩

theorem rosim_noop (s : Scheduler) (task_id : String) (w : Nat)
    (nm : Option String) (h : containsKey s.one_shot_tasks task_id = true) :
    Scheduler.restore_one_shot_in_memory s task_id w nm = s := by
  unfold Scheduler.restore_one_shot_in_memory
  rw [if_pos h]

theorem loaded_one_shot_mem (s : Scheduler) (ln : Nat) (r' : TaskRow)
    (h : r' ∈ (Scheduler.load_pending_tasks s ln).one_shot) :
    r' ∈ s.db ∧ r'.task_type = "one_shot" ∧ r'.status = "scheduled"
    ∧ ∃ t', r'.scheduled_for = some t' ∧ ln < t' := by
  unfold Scheduler.load_pending_tasks at h
  by_cases hp : s.enable_persistence = false
  · rw [if_pos hp] at h
    cases h
  · rw [if_neg hp] at h
    have h' := List.mem_filter.mp h
    refine ⟨h'.1, ?_⟩
    have hb := h'.2
    simp only [Bool.and_eq_true, beq_iff_eq] at hb
    refine ⟨hb.1.1, hb.1.2, ?_⟩
    cases hsm : r'.scheduled_for with
    | none => rw [hsm] at hb; simp at hb
    | some t' =>
        rw [hsm] at hb
        exact ⟨t', rfl, of_decide_eq_true hb.2⟩

/-- C1 (amended): a persisted one-shot row whose `scheduled_for` is still in
the future is re-armed in memory under its original task id without any new
durable row (idempotently: restoring an already-armed id is a no-op); a row
whose `scheduled_for` is already past at load time is excluded by the load
query, so it is never fired — but it is also never marked `completed`: the
row survives the restore unchanged, still in `scheduled` status, and no
timer is armed for it. -/
theorem C1_amended (env : CronEnv) (s : Scheduler) (load_now run_now : Nat)
    (r : TaskRow) (t : Nat) (ht : String) (h : Handler)
    (r2 : TaskRow) (t2 : Nat)
    (hmem : r ∈ (Scheduler.load_pending_tasks s load_now).one_shot)
    (hsf : r.scheduled_for = some t)
    (hfut : run_now < t)
    (hht : r.handler_type = some ht)
    (hreg : lookupKey s.restore_handlers ht = some h)
    (hok : h.creationRaises = false)
    (hmem2 : r2 ∈ s.db)
    (hsf2 : r2.scheduled_for = some t2)
    (hpast2 : t2 ≤ load_now)
    (huniq2 : ∀ r3 ∈ s.db, r3.task_id = r2.task_id → r3 = r2)
    (hnarm2 : containsKey s.one_shot_tasks r2.task_id = false) :
    containsKey (Scheduler.restore_pending_tasks env s load_now
      run_now).1.one_shot_tasks r.task_id = true
    ∧ (Scheduler.restore_pending_tasks env s load_now run_now).1.db.length
        = s.db.length
    ∧ Scheduler.restore_one_shot_in_memory
        (Scheduler.restore_pending_tasks env s load_now run_now).1 r.task_id t
        r.name
        = (Scheduler.restore_pending_tasks env s load_now run_now).1
    ∧ r2 ∈ (Scheduler.restore_pending_tasks env s load_now run_now).1.db
    ∧ containsKey (Scheduler.restore_pending_tasks env s load_now
        run_now).1.one_shot_tasks r2.task_id = false := by
  have hone : (Scheduler.restore_pending_tasks env s load_now
      run_now).1.one_shot_tasks
      = ((Scheduler.load_pending_tasks s load_now).cron.foldl
          (Scheduler.restore_cron_step env run_now)
          ((Scheduler.load_pending_tasks s load_now).one_shot.foldl
            (Scheduler.restore_one_shot_step run_now)
            ((Scheduler.load_pending_tasks s load_now).periodic.foldl
              Scheduler.restore_periodic_step
              ((s, ⟨0, 0, 0, []⟩) : Scheduler ×
                RestoreSummary)))).1.one_shot_tasks := rfl
  have hdb : (Scheduler.restore_pending_tasks env s load_now run_now).1.db
      = ((Scheduler.load_pending_tasks s load_now).cron.foldl
          (Scheduler.restore_cron_step env run_now)
          ((Scheduler.load_pending_tasks s load_now).one_shot.foldl
            (Scheduler.restore_one_shot_step run_now)
            ((Scheduler.load_pending_tasks s load_now).periodic.foldl
              Scheduler.restore_periodic_step
              ((s, ⟨0, 0, 0, []⟩) : Scheduler × RestoreSummary)))).1.db := rfl
  have hperiodic := restore_periodic_foldl_preserves
    (Scheduler.load_pending_tasks s load_now).periodic
    ((s, ⟨0, 0, 0, []⟩) : Scheduler × RestoreSummary)
  have hcron := restore_cron_foldl_preserves env run_now
    (Scheduler.load_pending_tasks s load_now).cron
    ((Scheduler.load_pending_tasks s load_now).one_shot.foldl
      (Scheduler.restore_one_shot_step run_now)
      ((Scheduler.load_pending_tasks s load_now).periodic.foldl
        Scheduler.restore_periodic_step
        ((s, ⟨0, 0, 0, []⟩) : Scheduler × RestoreSummary)))
  have hne : ∀ r' ∈ (Scheduler.load_pending_tasks s load_now).one_shot,
      r2.task_id ≠ r'.task_id := by
    intro r' hr' heq
    obtain ⟨hr'db, _, _, t', hsf', hlt'⟩ := loaded_one_shot_mem s load_now r' hr'
    have hr'eq : r' = r2 := huniq2 r' hr'db heq.symm
    subst hr'eq
    rw [hsf2] at hsf'
    cases hsf'
    exact absurd hlt' (Nat.not_lt.mpr hpast2)
  have harm : containsKey (Scheduler.restore_pending_tasks env s load_now
      run_now).1.one_shot_tasks r.task_id = true := by
    rw [hone, hcron.1]
    refine restore_one_shot_foldl_arms run_now _ _ r t ht h hmem hsf hfut hht
      ?_ hok
    rw [hperiodic.2.2.1]
    exact hreg
  refine ⟨harm, ?_, ?_, ?_, ?_⟩
  · rw [hdb, hcron.2.1,
        ((restore_one_shot_foldl_preserves run_now _ _).2.2.1 :
          _ = _), hperiodic.2.1]
  · exact rosim_noop _ r.task_id t r.name harm
  · rw [hdb, hcron.2.1]
    refine restore_one_shot_foldl_db_mem_other run_now _ _ r2 ?_ hne
    rw [hperiodic.2.1]
    exact hmem2
  · rw [hone, hcron.1,
        restore_one_shot_foldl_contains_ne run_now _ _ r2.task_id hne,
        hperiodic.1]
    exact hnarm2

/-- A persisted one-shot row whose fire instant (5) is already past at the
restore clock (10). -/
def rowPastOneShot : TaskRow :=
  { task_id := "tp", task_type := "one_shot", status := "scheduled",
    scheduled_for := some 5, handler_type := some "h" }

/-- A scheduler holding only `rowPastOneShot`, with its handler registered. -/
def s_past_row : Scheduler :=
  { db := [rowPastOneShot], restore_handlers := [("h", ⟨false⟩)] }

/-- C1 counterexample: restoring at time 10 a `scheduled` one-shot row whose
`scheduled_for` is 5 (already past) leaves the durable row in `scheduled`
status — it is NOT marked `completed` — because the load query filters it
out; nothing is armed and the summary reports nothing. -/
theorem C1_counterexample :
    ((Scheduler.restore_pending_tasks envTick s_past_row 10 10).1.db.map
        TaskRow.status = ["scheduled"])
    ∧ (Scheduler.restore_pending_tasks envTick s_past_row 10 10).2
        = ⟨0, 0, 0, []⟩
    ∧ containsKey (Scheduler.restore_pending_tasks envTick s_past_row 10
        10).1.one_shot_tasks "tp" = false := by
  exact ⟨rfl, rfl, rfl⟩

/-- A still-future persisted one-shot row (fire instant 20). -/
def rowFutureOneShot : TaskRow :=
  { task_id := "tf", task_type := "one_shot", status := "scheduled",
    scheduled_for := some 20, handler_type := some "h" }

/-- A scheduler holding one future and one past one-shot row. -/
def s_two_rows : Scheduler :=
  { db := [rowFutureOneShot, rowPastOneShot],
    restore_handlers := [("h", ⟨false⟩)] }

/-- C1 witness: the amended statement evaluated on `s_two_rows` at restore
time 10 — the future row re-arms under its original id, the past row stays
`scheduled` and unarmed, and the row count is unchanged. -/
theorem C1_witness :
    containsKey (Scheduler.restore_pending_tasks envTick s_two_rows 10
      10).1.one_shot_tasks "tf" = true
    ∧ (Scheduler.restore_pending_tasks envTick s_two_rows 10 10).1.db.length
        = 2
    ∧ rowPastOneShot ∈ (Scheduler.restore_pending_tasks envTick s_two_rows 10
        10).1.db
    ∧ containsKey (Scheduler.restore_pending_tasks envTick s_two_rows 10
        10).1.one_shot_tasks "tp" = false := by
  have h := C1_amended envTick s_two_rows 10 10 rowFutureOneShot 20 "h"
    ⟨false⟩ rowPastOneShot 5
    (by decide) rfl (by decide) rfl rfl rfl
    (by decide) rfl (by decide)
    (by decide) rfl
  exact ⟨h.1, h.2.1, h.2.2.2.1, h.2.2.2.2⟩

/-- The branch condition under which the one-shot restoration body takes its
"restored" path (read directly off `Scheduler.restore_one_shot_step`): the
row names a registered handler whose factory does not raise, and its
`scheduled_for` is still strictly future at `rn`. -/
def one_shot_restorable (handlers : List (String × Handler)) (rn : Nat)
    (r : TaskRow) : Bool :=
  match r.handler_type with
  | none => false
  | some ht =>
      match lookupKey handlers ht with
      | none => false
      | some h =>
          if h.creationRaises then false
          else
            match r.scheduled_for with
            | none => false
            | some t => decide (rn < t)

theorem restore_one_shot_step_count (rn : Nat)
    (acc : Scheduler × RestoreSummary) (r : TaskRow) :
    (Scheduler.restore_one_shot_step rn acc r).2.one_shot
      = acc.2.one_shot
        + (if one_shot_restorable acc.1.restore_handlers rn r then 1 else 0) := by
  unfold Scheduler.restore_one_shot_step one_shot_restorable
  cases hht : r.handler_type with
  | none => simp
  | some ht =>
      cases hlh : lookupKey acc.1.restore_handlers ht with
      | none => simp [hlh]
      | some h =>
          by_cases hcr : h.creationRaises = true
          · simp [hlh, hcr]
          · have hcr' : h.creationRaises = false := Bool.eq_false_iff.mpr hcr
            cases hsf : r.scheduled_for with
            | none => simp [hlh, hcr', hsf]
            | some t =>
                by_cases hfut : rn < t
                · simp [hlh, hcr', hsf, hfut]
                · simp [hlh, hcr', hsf, hfut]

theorem restore_one_shot_foldl_count (rn : Nat) (l : List TaskRow)
    (acc : Scheduler × RestoreSummary) :
    (l.foldl (Scheduler.restore_one_shot_step rn) acc).2.one_shot
      = acc.2.one_shot
        + l.countP (one_shot_restorable acc.1.restore_handlers rn) := by
  induction l generalizing acc with
  | nil => simp
  | cons x xs ih =>
      rw [List.foldl_cons, ih, (restore_one_shot_step_preserves rn acc x).1,
          restore_one_shot_step_count, List.countP_cons]
      omega

/-- A persisted cron row with a registered handler and a parsable
expression — fully restorable. -/
def rowCron : TaskRow :=
  { task_id := "c1", task_type := "cron", status := "scheduled",
    cron_expression := some "* * * * *", timezone_name := some "UTC",
    handler_type := some "h" }

/-- A scheduler holding only `rowCron`, with its handler registered. -/
def s_cron_row : Scheduler :=
  { db := [rowCron], restore_handlers := [("h", ⟨false⟩)] }

/-- C9 counterexample: restoring a database holding one restorable cron task
arms the cron timer, yet the returned summary is `(periodic := 0,
one_shot := 0, failed := 0, errors := [])` — it contains no count at all for
the cron restoration, so the summary does not report restored counts for
each task type. -/
theorem C9_counterexample :
    containsKey (Scheduler.restore_pending_tasks envTick s_cron_row 0
      0).1.cron_tasks "c1" = true
    ∧ (Scheduler.restore_pending_tasks envTick s_cron_row 0 0).2
        = ⟨0, 0, 0, []⟩ := by
  exact ⟨rfl, rfl⟩

/-- C9 (amended): `restore_pending_tasks` returns a summary holding a
`periodic` count (always zero, since periodic restoration is skipped), a
`one_shot` count that equals exactly the number of loaded one-shot rows that
restore successfully, a `failed` count and per-task error detail; each
restore attempt is independent — a restorable one-shot is armed no matter
what other rows fail, and a failing one appends its own error string and
failure count without aborting the rest; cron restorations are performed but
contribute nothing to the summary. -/
theorem C9_amended (env : CronEnv) (s : Scheduler) (load_now run_now : Nat)
    (r : TaskRow) (t : Nat) (ht : String) (h : Handler)
    (rb : TaskRow) (htb : String) (hb : Handler)
    (hmem : r ∈ (Scheduler.load_pending_tasks s load_now).one_shot)
    (hsf : r.scheduled_for = some t) (hfut : run_now < t)
    (hht : r.handler_type = some ht)
    (hreg : lookupKey s.restore_handlers ht = some h)
    (hok : h.creationRaises = false)
    (hmemb : rb ∈ (Scheduler.load_pending_tasks s load_now).one_shot)
    (hhtb : rb.handler_type = some htb)
    (hregb : lookupKey s.restore_handlers htb = some hb)
    (hcrb : hb.creationRaises = true) :
    (Scheduler.restore_pending_tasks env s load_now run_now).2.periodic = 0
    ∧ containsKey (Scheduler.restore_pending_tasks env s load_now
        run_now).1.one_shot_tasks r.task_id = true
    ∧ ("One-shot task " ++ rb.task_id ++ ": handler error")
        ∈ (Scheduler.restore_pending_tasks env s load_now run_now).2.errors
    ∧ 1 ≤ (Scheduler.restore_pending_tasks env s load_now run_now).2.failed
    ∧ (Scheduler.restore_pending_tasks env s load_now run_now).2
        = ((Scheduler.load_pending_tasks s load_now).one_shot.foldl
            (Scheduler.restore_one_shot_step run_now)
            ((Scheduler.load_pending_tasks s load_now).periodic.foldl
              Scheduler.restore_periodic_step
              ((s, ⟨0, 0, 0, []⟩) : Scheduler × RestoreSummary))).2
    ∧ (Scheduler.restore_pending_tasks env s load_now run_now).2.one_shot
        = (Scheduler.load_pending_tasks s load_now).one_shot.countP
            (one_shot_restorable s.restore_handlers run_now) := by
  have hperiodic := restore_periodic_foldl_preserves
    (Scheduler.load_pending_tasks s load_now).periodic
    ((s, ⟨0, 0, 0, []⟩) : Scheduler × RestoreSummary)
  have honeshot := restore_one_shot_foldl_preserves run_now
    (Scheduler.load_pending_tasks s load_now).one_shot
    ((Scheduler.load_pending_tasks s load_now).periodic.foldl
      Scheduler.restore_periodic_step
      ((s, ⟨0, 0, 0, []⟩) : Scheduler × RestoreSummary))
  have hcron := restore_cron_foldl_preserves env run_now
    (Scheduler.load_pending_tasks s load_now).cron
    ((Scheduler.load_pending_tasks s load_now).one_shot.foldl
      (Scheduler.restore_one_shot_step run_now)
      ((Scheduler.load_pending_tasks s load_now).periodic.foldl
        Scheduler.restore_periodic_step
        ((s, ⟨0, 0, 0, []⟩) : Scheduler × RestoreSummary)))
  have hsum : (Scheduler.restore_pending_tasks env s load_now run_now).2
      = ((Scheduler.load_pending_tasks s load_now).cron.foldl
          (Scheduler.restore_cron_step env run_now)
          ((Scheduler.load_pending_tasks s load_now).one_shot.foldl
            (Scheduler.restore_one_shot_step run_now)
            ((Scheduler.load_pending_tasks s load_now).periodic.foldl
              Scheduler.restore_periodic_step
              ((s, ⟨0, 0, 0, []⟩) : Scheduler × RestoreSummary)))).2 := rfl
  have hone : (Scheduler.restore_pending_tasks env s load_now
      run_now).1.one_shot_tasks
      = ((Scheduler.load_pending_tasks s load_now).cron.foldl
          (Scheduler.restore_cron_step env run_now)
          ((Scheduler.load_pending_tasks s load_now).one_shot.foldl
            (Scheduler.restore_one_shot_step run_now)
            ((Scheduler.load_pending_tasks s load_now).periodic.foldl
              Scheduler.restore_periodic_step
              ((s, ⟨0, 0, 0, []⟩) : Scheduler ×
                RestoreSummary)))).1.one_shot_tasks := rfl
  refine ⟨?_, ?_, ?_, ?_, ?_, ?_⟩
  · rw [hsum, hcron.2.2.2.2, honeshot.2.2.2.2.1, hperiodic.2.2.2.2]
  · rw [hone, hcron.1]
    refine restore_one_shot_foldl_arms run_now _ _ r t ht h hmem hsf hfut hht
      ?_ hok
    rw [hperiodic.2.2.1]
    exact hreg
  · rw [hsum, hcron.2.2.2.2]
    refine (restore_one_shot_foldl_reports run_now _ _ rb htb hb hmemb hhtb
      ?_ hcrb).1
    rw [hperiodic.2.2.1]
    exact hregb
  · rw [hsum, hcron.2.2.2.2]
    have hrep := restore_one_shot_foldl_reports run_now
      (Scheduler.load_pending_tasks s load_now).one_shot
      ((Scheduler.load_pending_tasks s load_now).periodic.foldl
        Scheduler.restore_periodic_step
        ((s, ⟨0, 0, 0, []⟩) : Scheduler × RestoreSummary)) rb htb hb hmemb
      hhtb (by rw [hperiodic.2.2.1]; exact hregb) hcrb
    have hzero : ((Scheduler.load_pending_tasks s load_now).periodic.foldl
        Scheduler.restore_periodic_step
        ((s, ⟨0, 0, 0, []⟩) : Scheduler × RestoreSummary)).2.failed = 0 := by
      rw [hperiodic.2.2.2.2]
    rw [hzero] at hrep
    exact hrep.2
  · rw [hsum, hcron.2.2.2.2]
  · rw [hsum, hcron.2.2.2.2, restore_one_shot_foldl_count,
        hperiodic.2.2.1, hperiodic.2.2.2.2]
    simp

/-- A still-future one-shot row whose registered handler factory raises when
invoked during restore. -/
def rowBadOneShot : TaskRow :=
  { task_id := "tb", task_type := "one_shot", status := "scheduled",
    scheduled_for := some 30, handler_type := some "hb" }

/-- A scheduler with one restorable and one failing one-shot row, the
failing one first. -/
def s_mixed_rows : Scheduler :=
  { db := [rowBadOneShot, rowFutureOneShot],
    restore_handlers := [("h", ⟨false⟩), ("hb", ⟨true⟩)] }

/-- C9 witness: the amended statement on `s_mixed_rows` — the failing row is
reported, the good one is still armed, and the cron phase leaves the summary
untouched. -/
theorem C9_witness :
    (Scheduler.restore_pending_tasks envTick s_mixed_rows 10 10).2.periodic = 0
    ∧ containsKey (Scheduler.restore_pending_tasks envTick s_mixed_rows 10
        10).1.one_shot_tasks "tf" = true
    ∧ ("One-shot task " ++ "tb" ++ ": handler error")
        ∈ (Scheduler.restore_pending_tasks envTick s_mixed_rows 10 10).2.errors
    ∧ 1 ≤ (Scheduler.restore_pending_tasks envTick s_mixed_rows 10 10).2.failed
    ∧ (Scheduler.restore_pending_tasks envTick s_mixed_rows 10 10).2.one_shot
        = 1 := by
  have h := C9_amended envTick s_mixed_rows 10 10 rowFutureOneShot 20 "h"
    ⟨false⟩ rowBadOneShot "hb" ⟨true⟩
    (by decide) rfl (by decide) rfl rfl rfl
    (by decide) rfl rfl rfl
  exact ⟨h.1, h.2.1, h.2.2.1, h.2.2.2.1, h.2.2.2.2.2.trans (by decide)⟩
